import Mathlib

/-!
# Graphing calculator: function family, history list and ASCII plotter

A shallow embedding of `ConsoleApplication1.cpp`.

Modelling conventions.
* A `double` is a rational number (exact arithmetic); an `int` is an integer. Signed overflow
  and conversions of out-of-range doubles are undefined in C++ and are not modelled.
* Where a statement is about the infinities and NaN of a double, `Dbl` keeps them: its
  arithmetic follows IEEE 754 on the non-finite values and rounds the exact result of two
  finite operands with a parameter `rnd`; `expD` is `exp` on these doubles.
* Division is that of `ℚ`. Division by zero, which on doubles yields an infinity or a NaN,
  arises only for a window with `xMax = xMin` or `yMax = yMin` and for a grid with
  `width = 1` or `height = 1`; the embedding says nothing faithful about those.
* The conversion `(int) d` is truncation toward zero, `toInt`.
* The two library routines the program calls on doubles are parameters of the embedding:
  `fmt` is the stream formatter `ostream << double`, `expFn` is `exp` of `<cmath>`.
* Output to `cout` is the `String` that is written. For the file routines, `fixed4` is the
  stream formatter under `fixed << setprecision(4)` and `opened` tells whether the file
  could be opened.
* The values read from `cin` are arguments of the calculator's members.
* A `vector<vector<char>>` is a `List (List Char)`; counted loops are folds over `List.range`.
* The linked list of `HistoryNode`s is the list of the functions its nodes point to.
-/

set_option autoImplicit false

namespace GraphCalc

/-! ## Function family -/

/-- The dynamic class of an `Expression` together with the private fields of that class. -/
inductive Shape where
  | linear (m c : ℚ)
  | quadratic (a b c : ℚ)
  | exponential (coefficient exponent : ℚ)
  deriving DecidableEq

/-- An object of a subclass of `Expression`: the protected `expressionStr` and the
fields of the derived class. -/
structure Expression where
  expressionStr : String
  shape : Shape
  deriving DecidableEq

/-- Constructor `LinearFunction::LinearFunction(slope, intercept)`. -/
def LinearFunction (fmt : ℚ → String) (slope intercept : ℚ) : Expression :=
  let m := slope
  let c := intercept
  let ss := "y = " ++ fmt m ++ "x"
  let ss := if c ≥ 0 then ss ++ " + " ++ fmt c else ss ++ " - " ++ fmt (-c)
  { expressionStr := ss, shape := Shape.linear m c }

/-- Constructor `QuadraticFunction::QuadraticFunction(coefA, coefB, coefC)`. -/
def QuadraticFunction (fmt : ℚ → String) (coefA coefB coefC : ℚ) : Expression :=
  let a := coefA
  let b := coefB
  let c := coefC
  let ss := "y = " ++ fmt a ++ "x^2"
  let ss := if b ≥ 0 then ss ++ " + " ++ fmt b ++ "x" else ss ++ " - " ++ fmt (-b) ++ "x"
  let ss := if c ≥ 0 then ss ++ " + " ++ fmt c else ss ++ " - " ++ fmt (-c)
  { expressionStr := ss, shape := Shape.quadratic a b c }

/-- Constructor `ExponentialFunction::ExponentialFunction(A, B)`. -/
def ExponentialFunction (fmt : ℚ → String) (A B : ℚ) : Expression :=
  let ss := "y = " ++ fmt A ++ "*e^(" ++ fmt B ++ "x)"
  { expressionStr := ss, shape := Shape.exponential A B }

namespace Expression

/-- The virtual `evaluate(double x)`, dispatched on the dynamic class. -/
def evaluate (expFn : ℚ → ℚ) (e : Expression) (x : ℚ) : ℚ :=
  match e.shape with
  | Shape.linear m c => m * x + c
  | Shape.quadratic a b c => a * x * x + b * x + c
  | Shape.exponential coefficient exponent => coefficient * expFn (exponent * x)

/-- The virtual `display() const`: the text written to `cout`. -/
def display (e : Expression) : String :=
  match e.shape with
  | Shape.linear _ _ => "Linear Function: " ++ e.expressionStr ++ "\n"
  | Shape.quadratic _ _ _ => "Quadratic Function: " ++ e.expressionStr ++ "\n"
  | Shape.exponential _ _ => "Exponential Function: " ++ e.expressionStr ++ "\n"

/-- The virtual `getType() const`. -/
def getType (e : Expression) : String :=
  match e.shape with
  | Shape.linear _ _ => "Linear"
  | Shape.quadratic _ _ _ => "Quadratic"
  | Shape.exponential _ _ => "Exponential"

/-- Member `Expression::getExpression() const`. -/
def getExpression (e : Expression) : String := e.expressionStr

/-- Member `Expression::setExpression(expr)`: the object after the call. -/
def setExpression (e : Expression) (expr : String) : Expression :=
  { e with expressionStr := expr }

end Expression

/-! ## Doubles with their non-finite values -/

/-- A `double` with its non-finite values kept: a finite value (a rational, the sign of a
zero is not kept), one of the two infinities, or a NaN. -/
inductive Dbl where
  | fin (q : ℚ)
  | posInf
  | negInf
  | nan
  deriving DecidableEq

namespace Dbl

/-- The product `a * b` of two doubles under IEEE 754; `rnd` rounds the exact product of two
finite values to a double (to nearest, to an infinity on overflow). A NaN operand and zero
times an infinity give a NaN; otherwise an infinite operand gives the infinity whose sign is
the product of the signs. -/
def mul (rnd : ℚ → Dbl) : Dbl → Dbl → Dbl
  | nan, _ => nan
  | _, nan => nan
  | fin a, fin b => rnd (a * b)
  | fin a, posInf => if a = 0 then nan else if 0 < a then posInf else negInf
  | fin a, negInf => if a = 0 then nan else if 0 < a then negInf else posInf
  | posInf, fin b => if b = 0 then nan else if 0 < b then posInf else negInf
  | negInf, fin b => if b = 0 then nan else if 0 < b then negInf else posInf
  | posInf, posInf => posInf
  | posInf, negInf => negInf
  | negInf, posInf => negInf
  | negInf, negInf => posInf

/-- The sum `a + b` of two doubles under IEEE 754; `rnd` rounds the exact sum of two finite
values. A NaN operand and the sum of opposite infinities give a NaN; otherwise an infinite
operand gives that infinity. -/
def add (rnd : ℚ → Dbl) : Dbl → Dbl → Dbl
  | nan, _ => nan
  | _, nan => nan
  | fin a, fin b => rnd (a + b)
  | fin _, posInf => posInf
  | fin _, negInf => negInf
  | posInf, fin _ => posInf
  | negInf, fin _ => negInf
  | posInf, posInf => posInf
  | posInf, negInf => nan
  | negInf, posInf => nan
  | negInf, negInf => negInf

end Dbl

namespace Expression

/-- The virtual `evaluate(double x)` on doubles with their non-finite values: `rnd` is the
rounding of the arithmetic, `expD` is `exp` of `<cmath>` on doubles. -/
def evaluateDbl (rnd : ℚ → Dbl) (expD : Dbl → Dbl) (e : Expression) (x : Dbl) : Dbl :=
  match e.shape with
  | Shape.linear m c => Dbl.add rnd (Dbl.mul rnd (Dbl.fin m) x) (Dbl.fin c)
  | Shape.quadratic a b c =>
    Dbl.add rnd
      (Dbl.add rnd (Dbl.mul rnd (Dbl.mul rnd (Dbl.fin a) x) x) (Dbl.mul rnd (Dbl.fin b) x))
      (Dbl.fin c)
  | Shape.exponential coefficient exponent =>
    Dbl.mul rnd (Dbl.fin coefficient) (expD (Dbl.mul rnd (Dbl.fin exponent) x))

end Expression

/-- One call of a public member of `Expression`. -/
inductive Op where
  | evaluate (x : ℚ)
  | display
  | getType
  | getExpression
  | setExpression (expr : String)

namespace Op

/-- The object after the call: `setExpression` assigns `expressionStr`, the other members
assign no field. -/
def apply (e : Expression) : Op → Expression
  | Op.setExpression expr => e.setExpression expr
  | _ => e

/-- The call is a `setExpression`. -/
def isSet : Op → Bool
  | Op.setExpression _ => true
  | _ => false

end Op

/-- The object after a sequence of calls, first call first. -/
def runOps (e : Expression) (ops : List Op) : Expression := ops.foldl Op.apply e

/-! ## History list -/

/-- The private state of `FunctionHistory`: the chain of nodes reached from `head`
(the `function` of each node, in `next` order; `nullptr` is the empty chain) and `count`. -/
structure FunctionHistory where
  head : List Expression
  count : Int
  deriving DecidableEq

namespace FunctionHistory

/-- Constructor `FunctionHistory::FunctionHistory()`. -/
def init : FunctionHistory := { head := [], count := 0 }

/-- Member `addFunction(func)`: a new node in front of the chain. -/
def addFunction (h : FunctionHistory) (func : Expression) : FunctionHistory :=
  { head := func :: h.head, count := h.count + 1 }

/-- The `while (current)` loop of `displayHistory`: the text written from node `current` on,
with `index` the number of the next entry. -/
def displayLoop : List Expression → Int → String
  | [], _ => ""
  | function :: next, index =>
    toString index ++ ". " ++ function.display ++ displayLoop next (index + 1)

/-- Member `displayHistory() const`: the text written to `cout`. -/
def displayHistory (h : FunctionHistory) : String :=
  if h.head = [] then "No history available.\n"
  else
    "\n========== FUNCTION HISTORY ==========\n" ++ displayLoop h.head 1 ++
      "======================================\n"

/-- Member `clear()`: every node and its function are deleted, then `head = nullptr` and
`count = 0`. -/
def clear (_h : FunctionHistory) : FunctionHistory := { head := [], count := 0 }

/-- Member `getCount() const`. -/
def getCount (h : FunctionHistory) : Int := h.count

/-- The entries a listing of the functions `fs` consists of, the first one numbered `k`. -/
def listing (k : Nat) (fs : List Expression) : List String :=
  (List.enumFrom k fs).map (fun q => toString (q.1 : Int) ++ ". " ++ q.2.display)

end FunctionHistory

/-! ## Plotter: coordinate transforms -/

/-- The C++ conversion `(int) d`: the fractional part is discarded (truncation toward zero). -/
def toInt (d : ℚ) : Int := if 0 ≤ d then ⌊d⌋ else ⌈d⌉

/-- The fields of `GraphPlotter`. -/
structure GraphPlotter where
  width : Int
  height : Int
  xMin : ℚ
  xMax : ℚ
  yMin : ℚ
  yMax : ℚ
  deriving DecidableEq

namespace GraphPlotter

/-- Constructor `GraphPlotter::GraphPlotter(w, h)`; the defaults are `w = 61`, `h = 21`. -/
def init (w : Int) (h : Int) : GraphPlotter :=
  { width := w, height := h, xMin := -10, xMax := 10, yMin := -10, yMax := 10 }

/-- Member `setRange(xmin, xmax, ymin, ymax)`. -/
def setRange (p : GraphPlotter) (xmin xmax ymin ymax : ℚ) : GraphPlotter :=
  { p with xMin := xmin, xMax := xmax, yMin := ymin, yMax := ymax }

/-- Member `setRange(xmin, xmax)`. -/
def setRangeX (p : GraphPlotter) (xmin xmax : ℚ) : GraphPlotter :=
  { p with xMin := xmin, xMax := xmax }

/-- Member `xToScreen(x)`. -/
def xToScreen (p : GraphPlotter) (x : ℚ) : Int :=
  toInt ((x - p.xMin) / (p.xMax - p.xMin) * ((p.width - 1 : Int) : ℚ))

/-- Member `yToScreen(y)`. -/
def yToScreen (p : GraphPlotter) (y : ℚ) : Int :=
  toInt ((p.yMax - y) / (p.yMax - p.yMin) * ((p.height - 1 : Int) : ℚ))

/-- Member `screenToX(col)`. -/
def screenToX (p : GraphPlotter) (col : Int) : ℚ :=
  p.xMin + (col : ℚ) * (p.xMax - p.xMin) / ((p.width - 1 : Int) : ℚ)

/-- Member `screenToY(row)`. -/
def screenToY (p : GraphPlotter) (row : Int) : ℚ :=
  p.yMax - (row : ℚ) * (p.yMax - p.yMin) / ((p.height - 1 : Int) : ℚ)

/-- The specification's wording of `xToScreen`: rounding to the nearest integer. -/
def specXToScreen (p : GraphPlotter) (x : ℚ) : Int :=
  round ((x - p.xMin) / (p.xMax - p.xMin) * ((p.width - 1 : Int) : ℚ))

/-- The specification's wording of `yToScreen`: rounding to the nearest integer. -/
def specYToScreen (p : GraphPlotter) (y : ℚ) : Int :=
  round ((p.yMax - y) / (p.yMax - p.yMin) * ((p.height - 1 : Int) : ℚ))

end GraphPlotter

/-! ## Plotter: canvas and rasterisation -/

/-- The local `vector<vector<char>> canvas` of `plot`. -/
abbrev Canvas := List (List Char)

namespace Canvas

/-- Read `canvas[i][j]` (a blank outside the canvas, where the program never reads). -/
def get (cv : Canvas) (i j : Nat) : Char := (cv.getD i []).getD j ' '

/-- The assignment `canvas[i][j] = ch`. -/
def set (cv : Canvas) (i j : Nat) (ch : Char) : Canvas :=
  List.set cv i (List.set (cv.getD i []) j ch)

/-- The initial `vector<vector<char>> canvas(height, vector<char>(width, ' '))`; a negative
dimension, which the constructor of `vector` rejects, gives no rows or no cells. -/
def blank (height width : Int) : Canvas :=
  List.replicate height.toNat (List.replicate width.toNat ' ')

/-- Cell `(i, j)` lies inside the canvas. -/
def inb (cv : Canvas) (i j : Nat) : Prop := i < cv.length ∧ j < (cv.getD i []).length

instance inbDecidable (cv : Canvas) (i j : Nat) : Decidable (inb cv i j) :=
  inferInstanceAs (Decidable (i < cv.length ∧ j < (cv.getD i []).length))

end Canvas

namespace GraphPlotter

/-- The constant `EPS` of `plot`. -/
def EPS : ℚ := 1 / 100

/-- Lines 154-160 of `plot`: the blank canvas with the two axes and their crossing. -/
def axesCanvas (p : GraphPlotter) : Canvas :=
  let canvas := Canvas.blank p.height p.width
  let xAxisRow := p.yToScreen 0
  let yAxisCol := p.xToScreen 0
  let canvas :=
    if xAxisRow ≥ 0 ∧ xAxisRow < p.height then
      (List.range p.width.toNat).foldl
        (fun (cv : Canvas) (j : Nat) => Canvas.set cv xAxisRow.toNat j '-') canvas
    else canvas
  let canvas :=
    if yAxisCol ≥ 0 ∧ yAxisCol < p.width then
      (List.range p.height.toNat).foldl
        (fun (cv : Canvas) (i : Nat) => Canvas.set cv i yAxisCol.toNat '|') canvas
    else canvas
  if xAxisRow ≥ 0 ∧ xAxisRow < p.height ∧ yAxisCol ≥ 0 ∧ yAxisCol < p.width then
    Canvas.set canvas xAxisRow.toNat yAxisCol.toNat '+'
  else canvas

/-- Lines 167-169 of `plot`: the row a sample of value `y` is aimed at. -/
def sampleRow (p : GraphPlotter) (y : ℚ) : Int :=
  let xAxisRow := p.yToScreen 0
  let row := p.yToScreen y
  if |y| < EPS then xAxisRow
  else if row = xAxisRow then row + (if y > 0 then -1 else 1)
  else row

/-- The body of the sample loop of `plot` (lines 164-173) for column `col`,
with `ev` the `evaluate` of the plotted function. -/
def plotColumn (p : GraphPlotter) (ev : ℚ → ℚ) (canvas : Canvas) (col : Int) : Canvas :=
  let x := p.screenToX col
  let y := ev x
  if y < p.yMin ∨ y > p.yMax then canvas
  else
    let row := p.sampleRow y
    if row ≥ 0 ∧ row < p.height ∧ col ≥ 0 ∧ col < p.width then
      if Canvas.get canvas row.toNat col.toNat = '-' ∨
          Canvas.get canvas row.toNat col.toNat = '|' then
        Canvas.set canvas row.toNat col.toNat '+'
      else Canvas.set canvas row.toNat col.toNat '*'
    else canvas

/-- Lines 154-174 of `plot` for an arbitrary evaluator: the canvas after the sample loop. -/
def plotWith (p : GraphPlotter) (ev : ℚ → ℚ) : Canvas :=
  (List.range p.width.toNat).foldl
    (fun (cv : Canvas) (col : Nat) => p.plotColumn ev cv (col : Int)) p.axesCanvas

/-- The canvas that `plot(func)` builds (lines 154-174) and then prints. -/
def plot (expFn : ℚ → ℚ) (p : GraphPlotter) (func : Expression) : Canvas :=
  p.plotWith (func.evaluate expFn)

/-- The glyph that lines 171-172 store over a cell holding `ch`. -/
def mark (ch : Char) : Char := if ch = '-' ∨ ch = '|' then '+' else '*'

/-- The glyph of cell `(r, c)` once the axes are drawn, read off the axis row and column. -/
def axesGlyph (p : GraphPlotter) (r c : Nat) : Char :=
  if (r : Int) = p.yToScreen 0 ∧ (c : Int) = p.xToScreen 0 then '+'
  else if (c : Int) = p.xToScreen 0 then '|'
  else if (r : Int) = p.yToScreen 0 then '-'
  else ' '

/-- Column `col` of the sample loop stores its sample in row `r`: the sample is inside the
window (line 166), its row is `r`, and the bounds check of line 170 passes. -/
def writes (p : GraphPlotter) (ev : ℚ → ℚ) (r col : Nat) : Prop :=
  ¬ (ev (p.screenToX col) < p.yMin ∨ ev (p.screenToX col) > p.yMax) ∧
    p.sampleRow (ev (p.screenToX col)) = (r : Int) ∧ (r : Int) < p.height ∧
    (col : Int) < p.width

instance writesDecidable (p : GraphPlotter) (ev : ℚ → ℚ) (r col : Nat) :
    Decidable (writes p ev r col) :=
  inferInstanceAs (Decidable
    (¬ (ev (p.screenToX col) < p.yMin ∨ ev (p.screenToX col) > p.yMax) ∧
      p.sampleRow (ev (p.screenToX col)) = (r : Int) ∧ (r : Int) < p.height ∧
      (col : Int) < p.width))

/-- The specification's wording of the target row of a sample of value `y`. -/
def specTargetRow (p : GraphPlotter) (y : ℚ) : Int :=
  if |y| < 1 / 100 then p.yToScreen 0
  else if p.yToScreen y = p.yToScreen 0 ∧ y > 0 then p.yToScreen y - 1
  else if p.yToScreen y = p.yToScreen 0 ∧ y < 0 then p.yToScreen y + 1
  else p.yToScreen y

/-- The canvas of the zero function on the default grid and window. -/
def zeroCanvas : Canvas :=
  List.replicate 10 (String.toList "                              |                              ") ++
  [String.toList "++++++++++++++++++++++++++++++*++++++++++++++++++++++++++++++"] ++
  List.replicate 10 (String.toList "                              |                              ")

/-- The canvas of `y = 100x` on the default grid and window. -/
def steepCanvas : Canvas :=
  List.replicate 10 (String.toList "                              |                              ") ++
  [String.toList "------------------------------*------------------------------"] ++
  List.replicate 10 (String.toList "                              |                              ")

/-- The canvas of `y = x^2` on the default grid with window `[-10,10] x [-20,50]`. -/
def parabolaCanvas : Canvas :=
  [ String.toList "         *                    |                    *         ",
    String.toList "          *                   |                   *          ",
    String.toList "           *                  |                  *           ",
    String.toList "                              |                              ",
    String.toList "            *                 |                 *            ",
    String.toList "             *                |                *             ",
    String.toList "              *               |               *              ",
    String.toList "               *              |              *               ",
    String.toList "                **            |            **                ",
    String.toList "                  *           |           *                  ",
    String.toList "                   *          |          *                   ",
    String.toList "                    **        |        **                    ",
    String.toList "                      **      |      **                      ",
    String.toList "                        ******|******                        ",
    String.toList "------------------------------*------------------------------",
    String.toList "                              |                              ",
    String.toList "                              |                              ",
    String.toList "                              |                              ",
    String.toList "                              |                              ",
    String.toList "                              |                              ",
    String.toList "                              |                              " ]

end GraphPlotter

/-! ## File handling -/

namespace FileManager

/-- What a call leaves behind: the text written to the file when it could be opened, and the
text written to `cout`. -/
structure Output where
  file : Option String
  console : String
  deriving DecidableEq

/-- Member `saveFunction(func, filename)`: one line appended to the file; `opened` tells
whether `outFile.is_open()` holds. -/
def saveFunction (opened : Bool) (func : Expression) (filename : String) : Output :=
  if opened then
    { file := some (func.getType ++ "|" ++ func.getExpression ++ "\n"),
      console := "Function saved to " ++ filename ++ "\n" }
  else { file := none, console := "Error: Could not open file for writing.\n" }

/-- The `for` loop of `saveGraphData` (lines 220-225): the pairs `(x, y)` of the data rows,
in the order they are written. -/
def graphDataRows (expFn : ℚ → ℚ) (func : Expression) (xMin xMax : ℚ) (points : Int) :
    List (ℚ × ℚ) :=
  let step := (xMax - xMin) / (points : ℚ)
  (List.range (points + 1).toNat).map (fun (i : Nat) =>
    let x := xMin + ((i : Int) : ℚ) * step
    let y := func.evaluate expFn x
    (x, y))

/-- Member `saveGraphData(func, xMin, xMax, points, filename)`; `fixed4` is the stream
formatter under `fixed << setprecision(4)`, `opened` tells whether `outFile.is_open()`
holds. -/
def saveGraphData (fixed4 : ℚ → String) (expFn : ℚ → ℚ) (opened : Bool) (func : Expression)
    (xMin xMax : ℚ) (points : Int) (filename : String) : Output :=
  if opened then
    { file := some ("Function: " ++ func.getExpression ++
        "\nX\t\tY\n=============================\n" ++
        String.join ((graphDataRows expFn func xMin xMax points).map
          (fun r => fixed4 r.1 ++ "\t\t" ++ fixed4 r.2 ++ "\n"))),
      console := "Graph data saved to " ++ filename ++ "\n" }
  else { file := none, console := "Error: Could not open file for writing.\n" }

end FileManager

/-! ## The calculator -/

/-- The fields of `GraphingCalculator`. -/
structure GraphingCalculator where
  plotter : GraphPlotter
  history : FunctionHistory
  deriving DecidableEq

namespace GraphingCalculator

/-- The implicit constructor: a default plotter and an empty history. -/
def init : GraphingCalculator :=
  { plotter := GraphPlotter.init 61 21, history := FunctionHistory.init }

/-- The plotter `plotLinear` plots with on the default grid: window `[-10,10] x [-R,R]`. -/
def linearWindow (R : ℚ) : GraphPlotter := (GraphPlotter.init 61 21).setRange (-10) 10 (-R) R

/-- Member `plotLinear()` for the values `m` and `c` read from `cin`: the calculator after
the call and the canvas that is plotted. The optional saving to files assigns no field. -/
def plotLinear (fmt : ℚ → String) (expFn : ℚ → ℚ) (gc : GraphingCalculator) (m c : ℚ) :
    GraphingCalculator × Canvas :=
  let func := LinearFunction fmt m c
  let range := max 10 (|c| * 2)
  let plotter := gc.plotter.setRange (-10) 10 (-range) range
  let canvas := plotter.plot expFn func
  ({ plotter := plotter, history := gc.history.addFunction func }, canvas)

/-- Member `plotQuadratic()` for the values `a`, `b` and `c` read from `cin`. -/
def plotQuadratic (fmt : ℚ → String) (expFn : ℚ → ℚ) (gc : GraphingCalculator)
    (a b c : ℚ) : GraphingCalculator × Canvas :=
  let func := QuadraticFunction fmt a b c
  let plotter := gc.plotter.setRange (-10) 10 (-20) 50
  let canvas := plotter.plot expFn func
  ({ plotter := plotter, history := gc.history.addFunction func }, canvas)

/-- Member `plotExponential()` for the values `A` and `B` read from `cin`. -/
def plotExponential (fmt : ℚ → String) (expFn : ℚ → ℚ) (gc : GraphingCalculator)
    (A B : ℚ) : GraphingCalculator × Canvas :=
  let func := ExponentialFunction fmt A B
  let plotter := gc.plotter.setRange (-3) 3 (-5) 30
  let canvas := plotter.plot expFn func
  ({ plotter := plotter, history := gc.history.addFunction func }, canvas)

end GraphingCalculator

/-! ## Concrete instances of the library parameters -/

/-- A concrete formatter for instantiating `fmt`: integers in decimal (what `<<` prints for
integers below a million in magnitude), other values as a fraction. -/
def fmtSample (q : ℚ) : String :=
  if q.den = 1 then toString q.num else toString q.num ++ "/" ++ toString q.den

/-- A concrete rational function for instantiating `expFn`. -/
def expSample (x : ℚ) : ℚ := 1 + x + x * x / 2

/-- A concrete `exp` on doubles for instantiating `expD`: it overflows to the positive
infinity above 709, underflows to zero below -745, sends the infinities to the positive
infinity and to zero, and keeps a NaN. -/
def expDSample : Dbl → Dbl
  | Dbl.fin t =>
    if 709 < t then Dbl.posInf else if t < -745 then Dbl.fin 0 else Dbl.fin (expSample t)
  | Dbl.posInf => Dbl.posInf
  | Dbl.negInf => Dbl.fin 0
  | Dbl.nan => Dbl.nan

/-! ## Canvas reads and writes -/

namespace Canvas

theorem getD_set_rows (cv : Canvas) (i i' : Nat) (row : List Char) :
    (List.set cv i row).getD i' [] =
      if i' = i ∧ i < cv.length then row else cv.getD i' [] := by
  simp only [List.getD_eq_getElem?_getD, List.getElem?_set]
  by_cases h : i = i'
  · subst h
    by_cases h2 : i < cv.length
    · simp [h2]
    · simp [h2, List.getElem?_eq_none (Nat.le_of_not_lt h2)]
  · have h' : ¬ i' = i := fun e => h e.symm
    simp [h, h']

theorem getD_set_cells (row : List Char) (j j' : Nat) (ch : Char) :
    (List.set row j ch).getD j' ' ' =
      if j' = j ∧ j < row.length then ch else row.getD j' ' ' := by
  simp only [List.getD_eq_getElem?_getD, List.getElem?_set]
  by_cases h : j = j'
  · subst h
    by_cases h2 : j < row.length
    · simp [h2]
    · simp [h2, List.getElem?_eq_none (Nat.le_of_not_lt h2)]
  · have h' : ¬ j' = j := fun e => h e.symm
    simp [h, h']

/-- Reading a cell after an assignment. -/
theorem get_set (cv : Canvas) (i j i' j' : Nat) (ch : Char) :
    get (set cv i j ch) i' j' =
      if i' = i ∧ j' = j ∧ inb cv i j then ch else get cv i' j' := by
  unfold get set inb
  rw [getD_set_rows]
  by_cases h1 : i' = i ∧ i < cv.length
  · rw [if_pos h1, getD_set_cells]
    obtain ⟨rfl, h2⟩ := h1
    by_cases h3 : j' = j ∧ j < (cv.getD i' []).length
    · rw [if_pos h3, if_pos ⟨rfl, h3.1, h2, h3.2⟩]
    · rw [if_neg h3, if_neg]
      rintro ⟨-, h4, -, h5⟩
      exact h3 ⟨h4, h5⟩
  · rw [if_neg h1, if_neg]
    rintro ⟨h4, -, h5, -⟩
    exact h1 ⟨h4, h5⟩

/-- An assignment keeps the dimensions of the canvas. -/
theorem inb_set (cv : Canvas) (i j i' j' : Nat) (ch : Char) :
    inb (set cv i j ch) i' j' ↔ inb cv i' j' := by
  unfold inb set
  rw [getD_set_rows, List.length_set]
  by_cases h1 : i' = i ∧ i < cv.length
  · rw [if_pos h1, List.length_set]
    obtain ⟨rfl, -⟩ := h1
    rfl
  · rw [if_neg h1]

theorem inb_blank (h w : Int) (i j : Nat) :
    inb (blank h w) i j ↔ i < h.toNat ∧ j < w.toNat := by
  unfold inb blank
  constructor
  · rintro ⟨h1, h2⟩
    rw [List.length_replicate] at h1
    refine ⟨h1, ?_⟩
    simpa [List.getD_eq_getElem?_getD, List.getElem?_replicate, h1] using h2
  · rintro ⟨h1, h2⟩
    refine ⟨by simpa using h1, ?_⟩
    simpa [List.getD_eq_getElem?_getD, List.getElem?_replicate, h1] using h2

theorem get_blank (h w : Int) (i j : Nat) : get (blank h w) i j = ' ' := by
  unfold get blank
  simp only [List.getD_eq_getElem?_getD, List.getElem?_replicate]
  by_cases h1 : i < h.toNat
  · by_cases h2 : j < w.toNat
    · simp [h1, h2]
    · simp [h1, h2]
  · simp [h1]

theorem get_of_not_inb (cv : Canvas) (i j : Nat) (h : ¬ inb cv i j) : get cv i j = ' ' := by
  unfold get
  unfold inb at h
  by_cases h1 : i < cv.length
  · have h2 : ¬ j < (cv.getD i []).length := fun h2 => h ⟨h1, h2⟩
    simp only [List.getD_eq_getElem?_getD] at h2 ⊢
    rw [List.getElem?_eq_none (Nat.le_of_not_lt h2)]
    rfl
  · simp only [List.getD_eq_getElem?_getD]
    rw [List.getElem?_eq_none (Nat.le_of_not_lt h1)]
    rfl

theorem inb_fillRow (cv : Canvas) (i n : Nat) (ch : Char) (i' j' : Nat) :
    inb ((List.range n).foldl (fun (acc : Canvas) (j : Nat) => set acc i j ch) cv) i' j' ↔
      inb cv i' j' := by
  induction n with
  | zero => simp
  | succ n ih =>
    rw [List.range_succ, List.foldl_append, List.foldl_cons, List.foldl_nil, inb_set, ih]

theorem inb_fillCol (cv : Canvas) (j n : Nat) (ch : Char) (i' j' : Nat) :
    inb ((List.range n).foldl (fun (acc : Canvas) (i : Nat) => set acc i j ch) cv) i' j' ↔
      inb cv i' j' := by
  induction n with
  | zero => simp
  | succ n ih =>
    rw [List.range_succ, List.foldl_append, List.foldl_cons, List.foldl_nil, inb_set, ih]

/-- Reading a cell after the first `n` cells of column `j` are filled. -/
theorem get_fillCol (cv : Canvas) (j n : Nat) (ch : Char) (i' j' : Nat) :
    get ((List.range n).foldl (fun (acc : Canvas) (i : Nat) => set acc i j ch) cv) i' j' =
      if j' = j ∧ i' < n ∧ inb cv i' j then ch else get cv i' j' := by
  induction n with
  | zero => simp
  | succ n ih =>
    rw [List.range_succ, List.foldl_append, List.foldl_cons, List.foldl_nil, get_set, ih]
    have hinb :
        inb ((List.range n).foldl (fun (acc : Canvas) (i : Nat) => set acc i j ch) cv) n j ↔
          inb cv n j :=
      inb_fillCol cv j n ch n j
    by_cases h1 : j' = j
    · subst h1
      by_cases h2 : i' = n
      · subst h2
        by_cases h3 : inb cv i' j'
        · simp [h3, hinb]
        · simp [h3, hinb]
      · by_cases h3 : i' < n
        · have : i' < n + 1 := by omega
          simp [h2, h3, this]
        · have : ¬ i' < n + 1 := by omega
          simp [h2, h3, this]
    · simp [h1]

/-- Reading a cell after the first `n` cells of row `i` are filled. -/
theorem get_fillRow (cv : Canvas) (i n : Nat) (ch : Char) (i' j' : Nat) :
    get ((List.range n).foldl (fun (acc : Canvas) (j : Nat) => set acc i j ch) cv) i' j' =
      if i' = i ∧ j' < n ∧ inb cv i j' then ch else get cv i' j' := by
  induction n with
  | zero => simp
  | succ n ih =>
    rw [List.range_succ, List.foldl_append, List.foldl_cons, List.foldl_nil, get_set, ih]
    have hinb :
        inb ((List.range n).foldl (fun (acc : Canvas) (j : Nat) => set acc i j ch) cv) i n ↔
          inb cv i n :=
      inb_fillRow cv i n ch i n
    by_cases h1 : i' = i
    · subst h1
      by_cases h2 : j' = n
      · subst h2
        by_cases h3 : inb cv i' j'
        · simp [h3, hinb]
        · simp [h3, hinb]
      · by_cases h3 : j' < n
        · have : j' < n + 1 := by omega
          simp [h2, h3, this]
        · have : ¬ j' < n + 1 := by omega
          simp [h2, h3, this]
    · simp [h1]

end Canvas

/-! ## Truncation -/

theorem toInt_of_nonneg {d : ℚ} (h : 0 ≤ d) : toInt d = ⌊d⌋ := by
  unfold toInt; rw [if_pos h]

theorem toInt_of_neg {d : ℚ} (h : d < 0) : toInt d = ⌈d⌉ := by
  unfold toInt; rw [if_neg (not_le.mpr h)]

theorem toInt_intCast (k : Int) : toInt (k : ℚ) = k := by
  unfold toInt
  split_ifs
  · exact Int.floor_intCast k
  · exact Int.ceil_intCast k

theorem toInt_eq_tdiv (d : ℚ) : toInt d = Int.tdiv d.num d.den := by
  by_cases h : 0 ≤ d
  · rw [toInt_of_nonneg h, Rat.floor_def]
    exact (Int.tdiv_eq_ediv (Rat.num_nonneg.mpr h) (Int.ofNat_nonneg _)).symm
  · have h' : d < 0 := not_le.mp h
    have hn : 0 ≤ -d := by linarith
    have hc : ⌈d⌉ = -⌊-d⌋ := by rw [Int.floor_neg, neg_neg]
    rw [toInt_of_neg h', hc, Rat.floor_def, Rat.neg_num, Rat.neg_den,
      ← Int.tdiv_eq_ediv (by simpa using Rat.num_nonneg.mpr hn) (Int.ofNat_nonneg _),
      Int.neg_tdiv, neg_neg]

/-- The result of `toInt` lies between zero and its argument, less than one away from it. -/
theorem toInt_trunc (d : ℚ) :
    |((toInt d : Int) : ℚ)| ≤ |d| ∧ |d| < |((toInt d : Int) : ℚ)| + 1 ∧
      0 ≤ ((toInt d : Int) : ℚ) * d := by
  by_cases h : 0 ≤ d
  · rw [toInt_of_nonneg h]
    have h1 : ((⌊d⌋ : Int) : ℚ) ≤ d := Int.floor_le d
    have h2 : d < ((⌊d⌋ : Int) : ℚ) + 1 := Int.lt_floor_add_one d
    have h3 : (0 : ℚ) ≤ ((⌊d⌋ : Int) : ℚ) := by exact_mod_cast Int.floor_nonneg.mpr h
    rw [abs_of_nonneg h3, abs_of_nonneg h]
    exact ⟨h1, h2, mul_nonneg h3 h⟩
  · have h' : d < 0 := not_le.mp h
    rw [toInt_of_neg h']
    have h1 : d ≤ ((⌈d⌉ : Int) : ℚ) := Int.le_ceil d
    have h2 : ((⌈d⌉ : Int) : ℚ) < d + 1 := Int.ceil_lt_add_one d
    have h3 : ((⌈d⌉ : Int) : ℚ) ≤ 0 := by exact_mod_cast Int.ceil_le.mpr (by simpa using h'.le)
    rw [abs_of_nonpos h3, abs_of_neg h']
    refine ⟨by linarith, by linarith, mul_nonneg_of_nonpos_of_nonpos h3 h'.le⟩

/-! ## The plotted canvas, cell by cell -/

namespace GraphPlotter

theorem evaluate_linear (expFn : ℚ → ℚ) (fmt : ℚ → String) (m c : ℚ) :
    (LinearFunction fmt m c).evaluate expFn = fun x => m * x + c := rfl

theorem evaluate_quadratic (expFn : ℚ → ℚ) (fmt : ℚ → String) (a b c : ℚ) :
    (QuadraticFunction fmt a b c).evaluate expFn = fun x => a * x * x + b * x + c := rfl

theorem inb_axesCanvas (p : GraphPlotter) (i j : Nat) :
    Canvas.inb p.axesCanvas i j ↔ i < p.height.toNat ∧ j < p.width.toNat := by
  unfold axesCanvas
  simp only []
  split_ifs <;>
    simp only [Canvas.inb_set, Canvas.inb_fillRow, Canvas.inb_fillCol, Canvas.inb_blank]

/-- Inside the grid the axes canvas holds the glyph read off the axis row and column. -/
theorem get_axesCanvas (p : GraphPlotter) (r c : Nat)
    (hr : r < p.height.toNat) (hc : c < p.width.toNat) :
    Canvas.get p.axesCanvas r c = p.axesGlyph r c := by
  have hr' : (r : Int) < p.height := by omega
  have hc' : (c : Int) < p.width := by omega
  unfold axesCanvas axesGlyph
  simp only []
  generalize p.yToScreen 0 = R
  generalize p.xToScreen 0 = C
  by_cases hR : R ≥ 0 ∧ R < p.height <;> by_cases hC : C ≥ 0 ∧ C < p.width
  · have hRC : R ≥ 0 ∧ R < p.height ∧ C ≥ 0 ∧ C < p.width := ⟨hR.1, hR.2, hC.1, hC.2⟩
    rw [if_pos hR, if_pos hC, if_pos hRC]
    simp only [Canvas.get_set, Canvas.get_fillCol, Canvas.get_fillRow, Canvas.inb_fillCol,
      Canvas.inb_fillRow, Canvas.inb_blank, Canvas.get_blank]
    split_ifs <;> first | rfl | (exfalso; omega)
  · have hRC : ¬ (R ≥ 0 ∧ R < p.height ∧ C ≥ 0 ∧ C < p.width) :=
      fun h => hC ⟨h.2.2.1, h.2.2.2⟩
    rw [if_pos hR, if_neg hC, if_neg hRC]
    simp only [Canvas.get_set, Canvas.get_fillCol, Canvas.get_fillRow, Canvas.inb_fillCol,
      Canvas.inb_fillRow, Canvas.inb_blank, Canvas.get_blank]
    split_ifs <;> first | rfl | (exfalso; omega)
  · have hRC : ¬ (R ≥ 0 ∧ R < p.height ∧ C ≥ 0 ∧ C < p.width) := fun h => hR ⟨h.1, h.2.1⟩
    rw [if_neg hR, if_pos hC, if_neg hRC]
    simp only [Canvas.get_set, Canvas.get_fillCol, Canvas.get_fillRow, Canvas.inb_fillCol,
      Canvas.inb_fillRow, Canvas.inb_blank, Canvas.get_blank]
    split_ifs <;> first | rfl | (exfalso; omega)
  · have hRC : ¬ (R ≥ 0 ∧ R < p.height ∧ C ≥ 0 ∧ C < p.width) := fun h => hR ⟨h.1, h.2.1⟩
    rw [if_neg hR, if_neg hC, if_neg hRC]
    simp only [Canvas.get_set, Canvas.get_fillCol, Canvas.get_fillRow, Canvas.inb_fillCol,
      Canvas.inb_fillRow, Canvas.inb_blank, Canvas.get_blank]
    split_ifs <;> first | rfl | (exfalso; omega)

theorem axesGlyph_cases (p : GraphPlotter) (r c : Nat) :
    p.axesGlyph r c = ' ' ∨ p.axesGlyph r c = '-' ∨ p.axesGlyph r c = '|' ∨
      p.axesGlyph r c = '+' := by
  unfold axesGlyph
  split_ifs <;> simp

theorem get_axesCanvas_cases (p : GraphPlotter) (r c : Nat) :
    Canvas.get p.axesCanvas r c = ' ' ∨ Canvas.get p.axesCanvas r c = '-' ∨
      Canvas.get p.axesCanvas r c = '|' ∨ Canvas.get p.axesCanvas r c = '+' := by
  by_cases h : Canvas.inb p.axesCanvas r c
  · have h' := (inb_axesCanvas p r c).mp h
    rw [get_axesCanvas p r c h'.1 h'.2]
    exact axesGlyph_cases p r c
  · exact Or.inl (Canvas.get_of_not_inb _ _ _ h)

/-- The loop body either leaves the canvas alone or stores one marked cell in its column. -/
theorem plotColumn_eq (p : GraphPlotter) (ev : ℚ → ℚ) (cv : Canvas) (col : Nat) :
    p.plotColumn ev cv (col : Int) =
      if ¬ (ev (p.screenToX col) < p.yMin ∨ ev (p.screenToX col) > p.yMax) ∧
          (p.sampleRow (ev (p.screenToX col)) ≥ 0 ∧
            p.sampleRow (ev (p.screenToX col)) < p.height ∧ (col : Int) < p.width) then
        Canvas.set cv (p.sampleRow (ev (p.screenToX col))).toNat col
          (mark (Canvas.get cv (p.sampleRow (ev (p.screenToX col))).toNat col))
      else cv := by
  unfold plotColumn mark
  simp only [Int.toNat_ofNat]
  have h0 : (col : Int) ≥ 0 := Int.ofNat_nonneg col
  split_ifs <;> first | rfl | (exfalso; tauto)

theorem inb_plotPrefix (p : GraphPlotter) (ev : ℚ → ℚ) (n i j : Nat) :
    Canvas.inb ((List.range n).foldl
        (fun (cv : Canvas) (col : Nat) => p.plotColumn ev cv (col : Int)) p.axesCanvas) i j ↔
      Canvas.inb p.axesCanvas i j := by
  induction n with
  | zero => simp
  | succ n ih =>
    rw [List.range_succ, List.foldl_append, List.foldl_cons, List.foldl_nil, plotColumn_eq]
    split_ifs
    · rw [Canvas.inb_set, ih]
    · exact ih

theorem get_plotPrefix (p : GraphPlotter) (ev : ℚ → ℚ) (n r c : Nat) :
    Canvas.get ((List.range n).foldl
        (fun (cv : Canvas) (col : Nat) => p.plotColumn ev cv (col : Int)) p.axesCanvas) r c =
      if c < n ∧ writes p ev r c then mark (Canvas.get p.axesCanvas r c)
      else Canvas.get p.axesCanvas r c := by
  induction n generalizing r c with
  | zero => simp
  | succ n ih =>
    rw [List.range_succ, List.foldl_append, List.foldl_cons, List.foldl_nil, plotColumn_eq]
    by_cases hg : ¬ (ev (p.screenToX n) < p.yMin ∨ ev (p.screenToX n) > p.yMax) ∧
          (p.sampleRow (ev (p.screenToX n)) ≥ 0 ∧
            p.sampleRow (ev (p.screenToX n)) < p.height ∧ (n : Int) < p.width)
    · rw [if_pos hg]
      simp only [Canvas.get_set, inb_plotPrefix, inb_axesCanvas, ih]
      obtain ⟨hw, h0, hh, hn⟩ := hg
      have hin : (p.sampleRow (ev (p.screenToX n))).toNat < p.height.toNat ∧
          n < p.width.toNat := by
        omega
      by_cases hc : c = n
      · subst hc
        by_cases hr : r = (p.sampleRow (ev (p.screenToX c))).toNat
        · have hwr : writes p ev r c := ⟨hw, by omega, by omega, hn⟩
          subst hr
          simp [hin, hwr]
        · have hwr : ¬ writes p ev r c := fun h => hr (by have := h.2.1; omega)
          simp [hr, hwr]
      · have h1 : c < n + 1 ↔ c < n := by omega
        simp [hc, h1]
    · rw [if_neg hg, ih]
      by_cases hc : c = n
      · subst hc
        have hwr : ¬ writes p ev r c := by
          rintro ⟨hw, hrow, hh, hn⟩
          exact hg ⟨hw, by omega, by omega, hn⟩
        simp [hwr]
      · have h1 : c < n + 1 ↔ c < n := by omega
        simp [h1]

theorem writes_lt (p : GraphPlotter) (ev : ℚ → ℚ) (r c : Nat) (h : writes p ev r c) :
    r < p.height.toNat ∧ c < p.width.toNat := by
  obtain ⟨-, -, hh, hn⟩ := h
  omega

/-- Cell `(r, c)` of the plotted canvas: the marked axes cell where column `c` stores its
sample in row `r`, the axes cell otherwise. -/
theorem get_plotWith (p : GraphPlotter) (ev : ℚ → ℚ) (r c : Nat) :
    Canvas.get (p.plotWith ev) r c =
      if writes p ev r c then mark (Canvas.get p.axesCanvas r c)
      else Canvas.get p.axesCanvas r c := by
  unfold plotWith
  rw [get_plotPrefix]
  by_cases h : writes p ev r c
  · simp [h, (writes_lt p ev r c h).2]
  · simp [h]

theorem sampleRow_eq_spec (p : GraphPlotter) (y : ℚ) : p.sampleRow y = p.specTargetRow y := by
  unfold sampleRow specTargetRow EPS
  simp only []
  by_cases h1 : |y| < 1 / 100
  · rw [if_pos h1, if_pos h1]
  · rw [if_neg h1, if_neg h1]
    by_cases h2 : p.yToScreen y = p.yToScreen 0
    · by_cases h3 : y > 0
      · rw [if_pos h2, if_pos h3, if_pos ⟨h2, h3⟩]
        rfl
      · have h4 : y < 0 := by
          rcases lt_trichotomy y 0 with h | h | h
          · exact h
          · exact absurd (by rw [h]; norm_num) h1
          · exact absurd h h3
        rw [if_pos h2, if_neg h3, if_neg (fun h => h3 h.2), if_pos ⟨h2, h4⟩]
    · rw [if_neg h2, if_neg (fun h => h2 h.1), if_neg (fun h => h2 h.1)]

theorem sampleRow_ne_axis (p : GraphPlotter) (y : ℚ) (h : |y| ≥ 1 / 100) :
    p.sampleRow y ≠ p.yToScreen 0 := by
  unfold sampleRow EPS
  simp only []
  rw [if_neg (not_lt.mpr h)]
  by_cases h2 : p.yToScreen y = p.yToScreen 0
  · rw [if_pos h2, h2]
    split_ifs <;> omega
  · rw [if_neg h2]
    exact h2

theorem sampleRow_eq_axis (p : GraphPlotter) (y : ℚ) (h : |y| < 1 / 100) :
    p.sampleRow y = p.yToScreen 0 := by
  unfold sampleRow EPS
  simp only []
  rw [if_pos h]

/-! ## Three concrete canvases -/

theorem plotWith_zero : (init 61 21).plotWith (fun x => 0 * x + 0) = zeroCanvas := by
  decide!

theorem plotWith_steep : (init 61 21).plotWith (fun x => 100 * x + 0) = steepCanvas := by
  decide!

theorem plotWith_parabola :
    ((init 61 21).setRange (-10) 10 (-20) 50).plotWith (fun x => 1 * x * x + 0 * x + 0) =
      parabolaCanvas := by
  decide!

end GraphPlotter

/-! ## History list -/

namespace FunctionHistory

theorem displayLoop_eq (fs : List Expression) (k : Nat) :
    displayLoop fs (k : Int) = (listing k fs).foldr (fun s acc => s ++ acc) "" := by
  induction fs generalizing k with
  | nil => rfl
  | cons f rest ih =>
    have h := ih (k + 1)
    simp only [displayLoop, listing, List.enumFrom_cons, List.map_cons, List.foldr_cons] at h ⊢
    rw [← h]
    push_cast
    rfl

theorem foldl_add (fs : List Expression) (h0 : FunctionHistory) :
    (fs.foldl addFunction h0).head = fs.reverse ++ h0.head ∧
      (fs.foldl addFunction h0).count = h0.count + fs.length := by
  induction fs generalizing h0 with
  | nil => simp
  | cons f rest ih =>
    rw [List.foldl_cons]
    obtain ⟨h1, h2⟩ := ih (addFunction h0 f)
    rw [h1, h2]
    simp [addFunction]
    ring

end FunctionHistory

/-! ## Sequences of member calls -/

theorem runOps_shape (ops : List Op) (e : Expression) : (runOps e ops).shape = e.shape := by
  unfold runOps
  induction ops generalizing e with
  | nil => rfl
  | cons o rest ih =>
    rw [List.foldl_cons, ih]
    cases o <;> rfl

theorem runOps_noSet (ops : List Op) (e : Expression) (h : ∀ o ∈ ops, o.isSet = false) :
    runOps e ops = e := by
  unfold runOps
  induction ops generalizing e with
  | nil => rfl
  | cons o rest ih =>
    rw [List.foldl_cons]
    have ho : o.isSet = false := h o (List.mem_cons_self _ _)
    have hrest : ∀ o' ∈ rest, o'.isSet = false :=
      fun o' ho' => h o' (List.mem_cons_of_mem _ ho')
    cases o with
    | setExpression s => simp [Op.isSet] at ho
    | evaluate x => exact ih e hrest
    | display => exact ih e hrest
    | getType => exact ih e hrest
    | getExpression => exact ih e hrest

/-! ## Claims C1 to C10 -/

namespace GraphPlotter

/-- C1 (as amended): plotting `LinearFunction(0,0)` on the default 61x21 grid and window
`[-10,10] x [-10,10]`, every cell of row 10 other than column 30 is `+`, every cell of
column 30 other than row 10 is `|`, and the crossing cell (10, 30) holds `*`. -/
theorem plot_zero_function_axes (fmt : ℚ → String) (expFn : ℚ → ℚ) :
    (∀ c : Nat, c < 61 → c ≠ 30 →
      Canvas.get (plot expFn (init 61 21) (LinearFunction fmt 0 0)) 10 c = '+') ∧
    (∀ r : Nat, r < 21 → r ≠ 10 →
      Canvas.get (plot expFn (init 61 21) (LinearFunction fmt 0 0)) r 30 = '|') ∧
    Canvas.get (plot expFn (init 61 21) (LinearFunction fmt 0 0)) 10 30 = '*' := by
  have h : plot expFn (init 61 21) (LinearFunction fmt 0 0) = zeroCanvas := plotWith_zero
  rw [h]
  decide

/-- C1, counterexample: for no formatter and no `exp` routine is the whole of row 10 made of
`+` and `-`, or the whole of column 30 made of `|` and `+`, when `LinearFunction(0,0)` is
plotted on the default grid and window: cell (10, 30) holds `*`. -/
theorem plot_zero_function_crossing_is_star :
    ¬ ∃ (fmt : ℚ → String) (expFn : ℚ → ℚ),
      (∀ c : Nat, c < 61 →
        (Canvas.get (plot expFn (init 61 21) (LinearFunction fmt 0 0)) 10 c = '+' ∨
          Canvas.get (plot expFn (init 61 21) (LinearFunction fmt 0 0)) 10 c = '-')) ∨
      (∀ r : Nat, r < 21 →
        (Canvas.get (plot expFn (init 61 21) (LinearFunction fmt 0 0)) r 30 = '|' ∨
          Canvas.get (plot expFn (init 61 21) (LinearFunction fmt 0 0)) r 30 = '+')) := by
  rintro ⟨fmt, expFn, h⟩
  have hc : plot expFn (init 61 21) (LinearFunction fmt 0 0) = zeroCanvas := plotWith_zero
  rw [hc] at h
  revert h
  decide

/-- C2 (as amended): for every window with `xMin < xMax` and `yMin < yMax` and every grid
size, `xToScreen(x)` is `(x - xMin) / (xMax - xMin) * (width - 1)` truncated toward zero, and
`yToScreen(y)` is `(yMax - y) / (yMax - yMin) * (height - 1)` truncated toward zero: the
integer quotient of numerator by denominator rounded toward zero, which lies between zero and
the value and less than one away from it. -/
theorem toScreen_truncates (p : GraphPlotter) (hx : p.xMin < p.xMax) (hy : p.yMin < p.yMax)
    (x y : ℚ) :
    (p.xToScreen x =
        Int.tdiv ((x - p.xMin) / (p.xMax - p.xMin) * ((p.width - 1 : Int) : ℚ)).num
          ((x - p.xMin) / (p.xMax - p.xMin) * ((p.width - 1 : Int) : ℚ)).den ∧
      |((p.xToScreen x : Int) : ℚ)| ≤
        |(x - p.xMin) / (p.xMax - p.xMin) * ((p.width - 1 : Int) : ℚ)| ∧
      |(x - p.xMin) / (p.xMax - p.xMin) * ((p.width - 1 : Int) : ℚ)| <
        |((p.xToScreen x : Int) : ℚ)| + 1 ∧
      0 ≤ ((p.xToScreen x : Int) : ℚ) *
        ((x - p.xMin) / (p.xMax - p.xMin) * ((p.width - 1 : Int) : ℚ))) ∧
    (p.yToScreen y =
        Int.tdiv ((p.yMax - y) / (p.yMax - p.yMin) * ((p.height - 1 : Int) : ℚ)).num
          ((p.yMax - y) / (p.yMax - p.yMin) * ((p.height - 1 : Int) : ℚ)).den ∧
      |((p.yToScreen y : Int) : ℚ)| ≤
        |(p.yMax - y) / (p.yMax - p.yMin) * ((p.height - 1 : Int) : ℚ)| ∧
      |(p.yMax - y) / (p.yMax - p.yMin) * ((p.height - 1 : Int) : ℚ)| <
        |((p.yToScreen y : Int) : ℚ)| + 1 ∧
      0 ≤ ((p.yToScreen y : Int) : ℚ) *
        ((p.yMax - y) / (p.yMax - p.yMin) * ((p.height - 1 : Int) : ℚ))) := by
  have _ := hx
  have _ := hy
  exact ⟨⟨toInt_eq_tdiv _, toInt_trunc _⟩, ⟨toInt_eq_tdiv _, toInt_trunc _⟩⟩

/-- C2, witness: on the default plotter `x = -9.8` has value 0.6 and column 0, `y = -9.8`
has value 19.8 and row 19. -/
theorem toScreen_truncates_witness :
    (init 61 21).xMin < (init 61 21).xMax ∧ (init 61 21).yMin < (init 61 21).yMax ∧
      (init 61 21).xToScreen (-49 / 5) = 0 ∧ (init 61 21).yToScreen (-49 / 5) = 19 := by
  have h := toScreen_truncates (init 61 21) (by decide!) (by decide!) (-49 / 5) (-49 / 5)
  refine ⟨by decide!, by decide!, ?_, ?_⟩
  · rw [h.1.1]; decide!
  · rw [h.2.1]; decide!

/-- C2, counterexample: on the default plotter `x = -9.8` has value 0.6, which `xToScreen`
sends to 0 and rounding to 1; `y = 9.4` has value 0.6, which `yToScreen` sends to 0 and
rounding to 1. -/
theorem toScreen_is_not_rounding :
    (init 61 21).xToScreen (-49 / 5) = 0 ∧ (init 61 21).specXToScreen (-49 / 5) = 1 ∧
      (init 61 21).yToScreen (47 / 5) = 0 ∧ (init 61 21).specYToScreen (47 / 5) = 1 := by
  decide!

/-- C3: with `width = 61`, `xMin = -10` and `xMax = 10`, for every `x` in `[-10, 10]` the
value `screenToX(xToScreen(x))` is within one cell width, `(xMax - xMin) / (width - 1) = 1/3`,
of `x`. -/
theorem screenToX_xToScreen_within_cell (p : GraphPlotter) (hw : p.width = 61)
    (hmin : p.xMin = -10) (hmax : p.xMax = 10) (x : ℚ) (h1 : -10 ≤ x) (h2 : x ≤ 10) :
    |p.screenToX (p.xToScreen x) - x| ≤ (p.xMax - p.xMin) / ((p.width - 1 : Int) : ℚ) ∧
      (p.xMax - p.xMin) / ((p.width - 1 : Int) : ℚ) = 1 / 3 := by
  have _ := h2
  unfold screenToX xToScreen
  rw [hw, hmin, hmax]
  have hv : (0 : ℚ) ≤ (x - -10) / (10 - -10) * ((61 - 1 : Int) : ℚ) := by
    push_cast
    apply mul_nonneg
    · apply div_nonneg <;> linarith
    · norm_num
  rw [toInt_of_nonneg hv]
  have hfl := Int.floor_le ((x - -10) / (10 - -10) * ((61 - 1 : Int) : ℚ))
  have hlt := Int.lt_floor_add_one ((x - -10) / (10 - -10) * ((61 - 1 : Int) : ℚ))
  generalize ⌊(x - -10) / (10 - -10) * ((61 - 1 : Int) : ℚ)⌋ = k at hfl hlt
  push_cast at hfl hlt ⊢
  constructor
  · rw [abs_le]
    constructor <;> linarith
  · norm_num

/-- C3, witness: on the default plotter the round trip of `x = 1/7` stays within `1/3`. -/
theorem screenToX_xToScreen_within_cell_witness :
    (-10 : ℚ) ≤ 1 / 7 ∧ (1 / 7 : ℚ) ≤ 10 ∧
      |(init 61 21).screenToX ((init 61 21).xToScreen (1 / 7)) - 1 / 7| ≤ 1 / 3 := by
  have h := screenToX_xToScreen_within_cell (init 61 21) rfl rfl rfl (1 / 7)
    (by norm_num) (by norm_num)
  rw [h.2] at h
  exact ⟨by norm_num, by norm_num, h.1⟩

/-- C4: for every window with `xMin != xMax` and `yMin != yMax`, every `width >= 2` and
`height >= 2` and every grid index, `xToScreen(screenToX(col)) = col` and
`yToScreen(screenToY(row)) = row`; in particular each differs from the index by at most 1. -/
theorem toScreen_screenTo_index (p : GraphPlotter) (hx : p.xMin ≠ p.xMax)
    (hy : p.yMin ≠ p.yMax) (hw : 2 ≤ p.width) (hh : 2 ≤ p.height) (col row : Int)
    (hc : 0 ≤ col ∧ col < p.width) (hr : 0 ≤ row ∧ row < p.height) :
    (p.xToScreen (p.screenToX col) = col ∧ p.yToScreen (p.screenToY row) = row) ∧
      |p.xToScreen (p.screenToX col) - col| ≤ 1 ∧ |p.yToScreen (p.screenToY row) - row| ≤ 1 := by
  have _ := hc
  have _ := hr
  have hx' : p.xMax - p.xMin ≠ 0 := fun h => hx (by linarith)
  have hy' : p.yMax - p.yMin ≠ 0 := fun h => hy (by linarith)
  have hw' : ((p.width - 1 : Int) : ℚ) ≠ 0 := by
    have : p.width - 1 ≠ 0 := by omega
    exact_mod_cast this
  have hh' : ((p.height - 1 : Int) : ℚ) ≠ 0 := by
    have : p.height - 1 ≠ 0 := by omega
    exact_mod_cast this
  have e1 : p.xToScreen (p.screenToX col) = col := by
    unfold xToScreen screenToX
    have : (p.xMin + (col : ℚ) * (p.xMax - p.xMin) / ((p.width - 1 : Int) : ℚ) - p.xMin) /
        (p.xMax - p.xMin) * ((p.width - 1 : Int) : ℚ) = (col : ℚ) := by
      generalize ((p.width - 1 : Int) : ℚ) = W at hw'
      field_simp
      ring
    rw [this, toInt_intCast]
  have e2 : p.yToScreen (p.screenToY row) = row := by
    unfold yToScreen screenToY
    have : (p.yMax - (p.yMax - (row : ℚ) * (p.yMax - p.yMin) / ((p.height - 1 : Int) : ℚ))) /
        (p.yMax - p.yMin) * ((p.height - 1 : Int) : ℚ) = (row : ℚ) := by
      generalize ((p.height - 1 : Int) : ℚ) = H at hh'
      field_simp
      ring
    rw [this, toInt_intCast]
  refine ⟨⟨e1, e2⟩, ?_, ?_⟩
  · rw [e1]; simp
  · rw [e2]; simp

/-- C4, witness: on the default plotter column 17 and row 5 come back unchanged. -/
theorem toScreen_screenTo_index_witness :
    (init 61 21).xToScreen ((init 61 21).screenToX 17) = 17 ∧
      (init 61 21).yToScreen ((init 61 21).screenToY 5) = 5 :=
  (toScreen_screenTo_index (init 61 21) (by decide!) (by decide!) (by decide) (by decide) 17 5
    (by decide) (by decide)).1

/-- C5: for every function, window and column `col`, if `y = evaluate(screenToX(col))` is
below `yMin` or above `yMax`, then column `col` of the plotted canvas is column `col` of the
axes-only canvas, and it contains no `*`. -/
theorem plot_skips_out_of_window (expFn : ℚ → ℚ) (p : GraphPlotter) (func : Expression)
    (col : Nat)
    (h : func.evaluate expFn (p.screenToX col) < p.yMin ∨
      func.evaluate expFn (p.screenToX col) > p.yMax) :
    ∀ r : Nat, Canvas.get (plot expFn p func) r col = Canvas.get p.axesCanvas r col ∧
      Canvas.get (plot expFn p func) r col ≠ '*' := by
  intro r
  have hw : ¬ writes p (func.evaluate expFn) r col := fun hw => hw.1 h
  have e : Canvas.get (plot expFn p func) r col = Canvas.get p.axesCanvas r col := by
    unfold plot
    rw [get_plotWith, if_neg hw]
  refine ⟨e, ?_⟩
  rw [e]
  rcases get_axesCanvas_cases p r col with h1 | h1 | h1 | h1 <;> rw [h1] <;> decide

/-- C5, witness: for `LinearFunction(100,0)` on the default grid and window, column 29 has
its sample below the window and equals the axes-only column, and column 30 is the only column
that contains a `*`. -/
theorem plot_skips_out_of_window_witness :
    (∀ r : Nat,
      Canvas.get (plot expSample (init 61 21) (LinearFunction fmtSample 100 0)) r 29 =
        Canvas.get (init 61 21).axesCanvas r 29 ∧
      Canvas.get (plot expSample (init 61 21) (LinearFunction fmtSample 100 0)) r 29 ≠ '*') ∧
    (∀ c : Nat, c < 61 →
      ((∃ r : Nat, r < 21 ∧
        Canvas.get (plot expSample (init 61 21) (LinearFunction fmtSample 100 0)) r c = '*') ↔
        c = 30)) := by
  refine ⟨plot_skips_out_of_window expSample (init 61 21) (LinearFunction fmtSample 100 0) 29
    (by decide!), ?_⟩
  have hc : plot expSample (init 61 21) (LinearFunction fmtSample 100 0) = steepCanvas :=
    plotWith_steep
  rw [hc]
  decide

/-- C6: for every function and every column whose sample `y` lies in `[yMin, yMax]`, the
target row is the one the specification words (`specTargetRow`); when `|y| >= 0.01` the
target row is not the axis row and the cell of that column on the axis row is the axes-only
cell; when `|y| < 0.01` the target row is the axis row and, that row being inside the grid,
the cell of the column on the axis row holds a sample glyph (`*` on the axis column, `+`
elsewhere). -/
theorem plot_target_row (expFn : ℚ → ℚ) (p : GraphPlotter) (func : Expression) (col : Nat)
    (hwin : p.yMin ≤ func.evaluate expFn (p.screenToX col) ∧
      func.evaluate expFn (p.screenToX col) ≤ p.yMax) :
    p.sampleRow (func.evaluate expFn (p.screenToX col)) =
      p.specTargetRow (func.evaluate expFn (p.screenToX col)) ∧
    (|func.evaluate expFn (p.screenToX col)| ≥ 1 / 100 →
      p.sampleRow (func.evaluate expFn (p.screenToX col)) ≠ p.yToScreen 0 ∧
      ∀ r : Nat, (r : Int) = p.yToScreen 0 →
        Canvas.get (plot expFn p func) r col = Canvas.get p.axesCanvas r col) ∧
    (|func.evaluate expFn (p.screenToX col)| < 1 / 100 →
      p.sampleRow (func.evaluate expFn (p.screenToX col)) = p.yToScreen 0 ∧
      (0 ≤ p.yToScreen 0 → p.yToScreen 0 < p.height → (col : Int) < p.width →
        Canvas.get (plot expFn p func) (p.yToScreen 0).toNat col =
          (if (col : Int) = p.xToScreen 0 then '*' else '+'))) := by
  unfold plot
  generalize func.evaluate expFn = ev at hwin ⊢
  have hin : ¬ (ev (p.screenToX col) < p.yMin ∨ ev (p.screenToX col) > p.yMax) := by
    rintro (h | h)
    · exact absurd hwin.1 (not_le.mpr h)
    · exact absurd hwin.2 (not_le.mpr h)
  refine ⟨sampleRow_eq_spec p _, ?_, ?_⟩
  · intro hbig
    have hne := sampleRow_ne_axis p _ hbig
    refine ⟨hne, ?_⟩
    intro r hr
    have hw : ¬ writes p ev r col := fun hw => hne (by rw [hw.2.1, hr])
    rw [get_plotWith, if_neg hw]
  · intro hsmall
    have heq := sampleRow_eq_axis p _ hsmall
    refine ⟨heq, ?_⟩
    intro h0 hh hc
    have hR : (((p.yToScreen 0).toNat : Nat) : Int) = p.yToScreen 0 := Int.toNat_of_nonneg h0
    have hw : writes p ev (p.yToScreen 0).toNat col :=
      ⟨hin, by rw [heq, hR], by rw [hR]; exact hh, hc⟩
    rw [get_plotWith, if_pos hw, get_axesCanvas p _ _ (by omega) (by omega)]
    unfold axesGlyph mark
    rw [hR]
    by_cases hcc : (col : Int) = p.xToScreen 0
    · simp [hcc]
    · simp [hcc]

/-- C6, witness: for `LinearFunction(1/2, 0)` on the default plotter, column 29 has
`y = -1/6`, whose row 10 is the axis row, so the sample goes to row 11: cell (10, 29) keeps
its `-` and cell (11, 29) holds `*`. -/
theorem plot_target_row_witness :
    (init 61 21).sampleRow ((LinearFunction fmtSample (1 / 2) 0).evaluate expSample
        ((init 61 21).screenToX ((29 : Nat) : Int))) = 11 ∧
      (init 61 21).yToScreen ((LinearFunction fmtSample (1 / 2) 0).evaluate expSample
        ((init 61 21).screenToX ((29 : Nat) : Int))) = 10 ∧
      (init 61 21).yToScreen 0 = 10 ∧
      Canvas.get (plot expSample (init 61 21) (LinearFunction fmtSample (1 / 2) 0)) 10 29
        = '-' ∧
      Canvas.get (plot expSample (init 61 21) (LinearFunction fmtSample (1 / 2) 0)) 11 29
        = '*' := by
  have h := plot_target_row expSample (init 61 21) (LinearFunction fmtSample (1 / 2) 0) 29
    (by rw [evaluate_linear]; decide!)
  have h2 := (h.2.1 (by rw [evaluate_linear]; decide!)).2 10 (by decide!)
  rw [h2]
  rw [evaluate_linear] at h ⊢
  refine ⟨?_, by decide!, by decide!, by decide!, ?_⟩
  · rw [h.1]; decide!
  · unfold plot
    rw [evaluate_linear]
    decide!

/-- C7: plotting `QuadraticFunction(1,0,0)` on the default 61x21 grid with window
`[-10,10] x [-20,50]`, the canvas is mirror-symmetric about column 30; the row of `y = 0` is
row 14; the sample of column 30 is aimed at row 14 and cell (14, 30) holds `*`; the sample of
every other column is aimed at a row strictly above row 14; and no `*` lies below row 14 or
on row 14 outside column 30. -/
theorem plot_parabola_symmetric_minimum (fmt : ℚ → String) (expFn : ℚ → ℚ) :
    (∀ r : Nat, r < 21 → ∀ c : Nat, c < 61 →
      Canvas.get (plot expFn ((init 61 21).setRange (-10) 10 (-20) 50)
          (QuadraticFunction fmt 1 0 0)) r c =
        Canvas.get (plot expFn ((init 61 21).setRange (-10) 10 (-20) 50)
          (QuadraticFunction fmt 1 0 0)) r (60 - c)) ∧
    ((init 61 21).setRange (-10) 10 (-20) 50).yToScreen 0 = 14 ∧
    ((init 61 21).setRange (-10) 10 (-20) 50).sampleRow
      ((QuadraticFunction fmt 1 0 0).evaluate expFn
        (((init 61 21).setRange (-10) 10 (-20) 50).screenToX 30)) = 14 ∧
    Canvas.get (plot expFn ((init 61 21).setRange (-10) 10 (-20) 50)
      (QuadraticFunction fmt 1 0 0)) 14 30 = '*' ∧
    (∀ c : Nat, c < 61 → c ≠ 30 →
      ((init 61 21).setRange (-10) 10 (-20) 50).sampleRow
        ((QuadraticFunction fmt 1 0 0).evaluate expFn
          (((init 61 21).setRange (-10) 10 (-20) 50).screenToX c)) < 14) ∧
    (∀ r : Nat, r < 21 → ∀ c : Nat, c < 61 →
      Canvas.get (plot expFn ((init 61 21).setRange (-10) 10 (-20) 50)
        (QuadraticFunction fmt 1 0 0)) r c = '*' → r ≤ 14 ∧ (r = 14 → c = 30)) := by
  have hc : plot expFn ((init 61 21).setRange (-10) 10 (-20) 50)
      (QuadraticFunction fmt 1 0 0) = parabolaCanvas := plotWith_parabola
  rw [hc, evaluate_quadratic]
  refine ⟨by decide, by decide!, by decide!, by decide, by decide!, by decide⟩

end GraphPlotter

namespace FunctionHistory

/-- C8: starting from an empty history (freshly constructed or just cleared), after
`addFunction(f1)`, ..., `addFunction(fn)` the count is `n`, the stored sequence has length
`n` and is `fn, ..., f1`, and for `n >= 1` `displayHistory` writes the header, the entries
of `fn, ..., f1` numbered from 1, and the footer. -/
theorem history_add_count_order (h0 : FunctionHistory)
    (hempty : h0 = init ∨ ∃ h : FunctionHistory, h0 = h.clear) (fs : List Expression) :
    (fs.foldl addFunction h0).getCount = (fs.length : Int) ∧
      (fs.foldl addFunction h0).head.length = fs.length ∧
      (fs.foldl addFunction h0).head = fs.reverse ∧
      (1 ≤ fs.length →
        (fs.foldl addFunction h0).displayHistory =
          "\n========== FUNCTION HISTORY ==========\n" ++
            (listing 1 fs.reverse).foldr (fun s acc => s ++ acc) "" ++
            "======================================\n") := by
  have h00 : h0 = init := by
    rcases hempty with h | ⟨h, hh⟩
    · exact h
    · exact hh
  subst h00
  obtain ⟨h1, h2⟩ := foldl_add fs init
  have hhead : (fs.foldl addFunction init).head = fs.reverse := by simpa [init] using h1
  refine ⟨by simpa [getCount, init] using h2, by rw [hhead, List.length_reverse], hhead, ?_⟩
  intro hn
  have hne : fs.reverse ≠ [] := by
    intro h
    rw [List.reverse_eq_nil_iff] at h
    subst h
    simp at hn
  unfold displayHistory
  rw [hhead, if_neg hne]
  have := displayLoop_eq fs.reverse 1
  simp only [Nat.cast_one] at this
  rw [this]

/-- C8, witness: adding a linear, a quadratic and an exponential function to a fresh history
gives count 3, the sequence exponential, quadratic, linear, and a listing in that order
numbered 1 to 3. -/
theorem history_add_count_order_witness :
    (((init.addFunction (LinearFunction fmtSample 2 (-3))).addFunction
        (QuadraticFunction fmtSample 1 0 0)).addFunction
        (ExponentialFunction fmtSample 1 1)).getCount = 3 ∧
    (((init.addFunction (LinearFunction fmtSample 2 (-3))).addFunction
        (QuadraticFunction fmtSample 1 0 0)).addFunction
        (ExponentialFunction fmtSample 1 1)).head =
      [ExponentialFunction fmtSample 1 1, QuadraticFunction fmtSample 1 0 0,
        LinearFunction fmtSample 2 (-3)] ∧
    (((init.addFunction (LinearFunction fmtSample 2 (-3))).addFunction
        (QuadraticFunction fmtSample 1 0 0)).addFunction
        (ExponentialFunction fmtSample 1 1)).displayHistory =
      "\n========== FUNCTION HISTORY ==========\n" ++
        ("1. Exponential Function: y = 1*e^(1x)\n" ++
          ("2. Quadratic Function: y = 1x^2 + 0x + 0\n" ++
            ("3. Linear Function: y = 2x - 3\n" ++ ""))) ++
        "======================================\n" := by
  have h := history_add_count_order init (Or.inl rfl)
    [LinearFunction fmtSample 2 (-3), QuadraticFunction fmtSample 1 0 0,
      ExponentialFunction fmtSample 1 1]
  refine ⟨h.1, h.2.2.1, ?_⟩
  have h3 := h.2.2.2 (by decide)
  rw [show (List.foldl addFunction init [LinearFunction fmtSample 2 (-3),
      QuadraticFunction fmtSample 1 0 0, ExponentialFunction fmtSample 1 1]) =
      ((init.addFunction (LinearFunction fmtSample 2 (-3))).addFunction
        (QuadraticFunction fmtSample 1 0 0)).addFunction
        (ExponentialFunction fmtSample 1 1) from rfl] at h3
  rw [h3]
  decide!

/-- C9: for every history state, after `clear()` the chain is empty, `getCount()` is 0 and
`displayHistory` writes the empty message; `clear` after `clear` equals `clear`, and clearing
an empty history leaves it unchanged. -/
theorem history_clear_empty_idempotent (h : FunctionHistory) :
    h.clear.head = [] ∧ h.clear.getCount = 0 ∧
      h.clear.displayHistory = "No history available.\n" ∧
      h.clear.clear = h.clear ∧ init.clear = init ∧
      (∀ e : FunctionHistory, e.head = [] → e.count = 0 → e.clear = e) := by
  refine ⟨rfl, rfl, rfl, rfl, rfl, ?_⟩
  intro e h1 h2
  cases e
  simp only at h1 h2
  subst h1 h2
  rfl

end FunctionHistory

/-- C10 (as amended): after any sequence of calls of the public members of `Expression`,
`evaluate` computes with the constructor's parameters and `getType` is unchanged;
`getExpression` returns the text built at construction as long as the sequence holds no
`setExpression`, and the argument of the last `setExpression` otherwise. -/
theorem function_parameters_immutable (expFn : ℚ → ℚ) (fmt : ℚ → String) (e : Expression)
    (ops : List Op) :
    (∀ x : ℚ, (runOps e ops).evaluate expFn x = e.evaluate expFn x) ∧
      (∀ m c x : ℚ, (runOps (LinearFunction fmt m c) ops).evaluate expFn x = m * x + c) ∧
      (∀ a b c x : ℚ,
        (runOps (QuadraticFunction fmt a b c) ops).evaluate expFn x = a * x * x + b * x + c) ∧
      (∀ A B x : ℚ,
        (runOps (ExponentialFunction fmt A B) ops).evaluate expFn x = A * expFn (B * x)) ∧
      (runOps e ops).getType = e.getType ∧
      ((∀ o ∈ ops, o.isSet = false) → (runOps e ops).getExpression = e.getExpression) ∧
      (∀ (more : List Op) (expr : String), (∀ o ∈ more, o.isSet = false) →
        (runOps e (ops ++ Op.setExpression expr :: more)).getExpression = expr) := by
  have hev : ∀ (e' : Expression) (x : ℚ),
      (runOps e' ops).evaluate expFn x = e'.evaluate expFn x := by
    intro e' x
    unfold Expression.evaluate
    rw [runOps_shape]
  refine ⟨hev e, ?_, ?_, ?_, ?_, ?_, ?_⟩
  · intro m c x
    rw [hev]
    rfl
  · intro a b c x
    rw [hev]
    rfl
  · intro A B x
    rw [hev]
    rfl
  · unfold Expression.getType
    rw [runOps_shape]
  · intro h
    rw [runOps_noSet ops e h]
  · intro more expr h
    have : runOps e (ops ++ Op.setExpression expr :: more) =
        runOps ((runOps e ops).setExpression expr) more := by
      unfold runOps
      rw [List.foldl_append, List.foldl_cons]
      rfl
    rw [this, runOps_noSet more _ h]
    rfl

/-- C10, counterexample: for no formatter does `getExpression` of `LinearFunction(1,0)` keep
the constructed text under every sequence of calls: after `setExpression("")` it returns the
empty text, while the constructed text starts with `y = `. -/
theorem setExpression_changes_text :
    ¬ ∃ fmt : ℚ → String, ∀ ops : List Op,
      (runOps (LinearFunction fmt 1 0) ops).getExpression =
        (LinearFunction fmt 1 0).getExpression := by
  rintro ⟨fmt, h⟩
  have h1 := h [Op.setExpression ""]
  have h2 := congrArg String.length h1
  simp [runOps, Op.apply, Expression.setExpression, Expression.getExpression,
    LinearFunction] at h2
  have h4 : "y = ".length = 4 := by decide
  omega

/-! ## Sample table, grid bounds and the window of `plotLinear` -/

namespace FileManager

theorem graphDataRows_length (expFn : ℚ → ℚ) (func : Expression) (xMin xMax : ℚ) (points : Int) :
    (graphDataRows expFn func xMin xMax points).length = (points + 1).toNat := by
  unfold graphDataRows
  simp

theorem graphDataRows_getElem? (expFn : ℚ → ℚ) (func : Expression) (xMin xMax : ℚ)
    (points : Int) (i : Nat) (hi : (i : Int) ≤ points) :
    (graphDataRows expFn func xMin xMax points)[i]? =
      some (xMin + ((i : Int) : ℚ) * ((xMax - xMin) / (points : ℚ)),
        func.evaluate expFn (xMin + ((i : Int) : ℚ) * ((xMax - xMin) / (points : ℚ)))) := by
  unfold graphDataRows
  have h : i < (points + 1).toNat := by omega
  simp [List.getElem?_map, List.getElem?_range h]

end FileManager

namespace GraphPlotter

/-- A value of `[lo, hi]` is sent into `[0, n - 1]` by scaling and truncation. -/
theorem toScreen_bounds (lo hi v : ℚ) (n : Int) (hlt : lo < hi) (hn : 1 ≤ n)
    (h1 : lo ≤ v) (h2 : v ≤ hi) :
    0 ≤ toInt ((v - lo) / (hi - lo) * ((n - 1 : Int) : ℚ)) ∧
      toInt ((v - lo) / (hi - lo) * ((n - 1 : Int) : ℚ)) ≤ n - 1 := by
  have hd : 0 < hi - lo := by linarith
  have hN : (0 : ℚ) ≤ ((n - 1 : Int) : ℚ) := by
    have : (0 : Int) ≤ n - 1 := by omega
    exact_mod_cast this
  have hf0 : 0 ≤ (v - lo) / (hi - lo) := div_nonneg (by linarith) hd.le
  have hf1 : (v - lo) / (hi - lo) ≤ 1 := by
    rw [div_le_one hd]
    linarith
  have hv0 : 0 ≤ (v - lo) / (hi - lo) * ((n - 1 : Int) : ℚ) := mul_nonneg hf0 hN
  have hv1 : (v - lo) / (hi - lo) * ((n - 1 : Int) : ℚ) ≤ ((n - 1 : Int) : ℚ) := by
    calc (v - lo) / (hi - lo) * ((n - 1 : Int) : ℚ) ≤ 1 * ((n - 1 : Int) : ℚ) :=
          mul_le_mul_of_nonneg_right hf1 hN
      _ = ((n - 1 : Int) : ℚ) := one_mul _
  rw [toInt_of_nonneg hv0]
  refine ⟨Int.floor_nonneg.mpr hv0, ?_⟩
  have := Int.floor_le_floor hv1
  rwa [Int.floor_intCast] at this

end GraphPlotter

namespace GraphingCalculator

open GraphPlotter

/-- With the default grid, `setRange` in `plotLinear` yields `linearWindow`. -/
theorem plotLinear_plotter (gc : GraphingCalculator) (hw : gc.plotter.width = 61)
    (hh : gc.plotter.height = 21) (R : ℚ) :
    gc.plotter.setRange (-10) 10 (-R) R =
      linearWindow R := by
  unfold linearWindow GraphPlotter.init GraphPlotter.setRange
  simp only []
  rw [hw, hh]

theorem linearWindow_value (R c : ℚ) (hR : 10 ≤ R) :
    (R - c) / (R - -R) * ((21 - 1 : Int) : ℚ) = 10 - 10 * c / R := by
  have h0 : R ≠ 0 := by linarith
  have h1 : R - -R ≠ 0 := by
    intro h
    apply h0
    linarith
  push_cast
  field_simp
  ring

theorem linearWindow_axisRow (R : ℚ) (hR : 10 ≤ R) :
    (linearWindow R).yToScreen 0 = 10 := by
  unfold linearWindow GraphPlotter.init GraphPlotter.setRange GraphPlotter.yToScreen
  simp only []
  rw [linearWindow_value R 0 hR]
  have : (10 : ℚ) - 10 * 0 / R = ((10 : Int) : ℚ) := by norm_num
  rw [this, toInt_intCast]

theorem linearWindow_axisCol (R : ℚ) :
    (linearWindow R).xToScreen 0 = 30 := by
  unfold linearWindow GraphPlotter.init GraphPlotter.setRange GraphPlotter.xToScreen
  simp only []
  have : ((0 : ℚ) - -10) / (10 - -10) * ((61 - 1 : Int) : ℚ) = ((30 : Int) : ℚ) := by norm_num
  rw [this, toInt_intCast]

theorem linearWindow_x30 (R : ℚ) :
    (linearWindow R).screenToX ((30 : Nat) : Int) = 0 := by
  unfold linearWindow GraphPlotter.init GraphPlotter.setRange GraphPlotter.screenToX
  norm_num

theorem linearWindow_row (R c : ℚ) (hR : 10 ≤ R) (hc : |c| * 2 ≤ R) :
    5 ≤ (linearWindow R).yToScreen c ∧
      (linearWindow R).yToScreen c ≤ 15 ∧
      (0 < c → (linearWindow R).yToScreen c ≤ 9) ∧
      (c < 0 → 10 ≤ (linearWindow R).yToScreen c) := by
  unfold linearWindow GraphPlotter.init GraphPlotter.setRange GraphPlotter.yToScreen
  simp only []
  rw [linearWindow_value R c hR]
  have hRpos : 0 < R := by linarith
  have habs := abs_le.mp (le_refl |c|)
  have hq1 : 10 * c / R ≤ 5 := by
    rw [div_le_iff₀ hRpos]
    linarith [habs.2]
  have hq2 : -5 ≤ 10 * c / R := by
    rw [le_div_iff₀ hRpos]
    linarith [habs.1]
  have hv0 : (0 : ℚ) ≤ 10 - 10 * c / R := by linarith
  rw [toInt_of_nonneg hv0]
  refine ⟨?_, ?_, ?_, ?_⟩
  · rw [Int.le_floor]
    push_cast
    linarith
  · have : ⌊10 - 10 * c / R⌋ < 16 := by
      rw [Int.floor_lt]
      push_cast
      linarith
    omega
  · intro hpos
    have hq : 0 < 10 * c / R := div_pos (by linarith) hRpos
    have : ⌊10 - 10 * c / R⌋ < 10 := by
      rw [Int.floor_lt]
      push_cast
      linarith
    omega
  · intro hneg
    have hq : 10 * c / R < 0 := div_neg_of_neg_of_pos (by linarith) hRpos
    rw [Int.le_floor]
    push_cast
    linarith

theorem linearWindow_sampleRow (R c : ℚ) (hR : 10 ≤ R) (hc : |c| * 2 ≤ R) :
    (|c| < 1 / 100 →
      (linearWindow R).sampleRow c = 10) ∧
    (|c| ≥ 1 / 100 →
      (linearWindow R).sampleRow c ≠ 10 ∧
      5 ≤ (linearWindow R).sampleRow c ∧
      (linearWindow R).sampleRow c ≤ 15) := by
  have hax := linearWindow_axisRow R hR
  obtain ⟨h5, h15, hpos, hneg⟩ := linearWindow_row R c hR hc
  constructor
  · intro hsmall
    rw [sampleRow_eq_axis _ c hsmall, hax]
  · intro hbig
    have hne := sampleRow_ne_axis
      (linearWindow R) c hbig
    rw [hax] at hne
    refine ⟨hne, ?_⟩
    revert hne
    unfold GraphPlotter.sampleRow GraphPlotter.EPS
    simp only []
    rw [if_neg (not_lt.mpr hbig), hax]
    by_cases hc0 : c > 0
    · have h9 := hpos hc0
      rw [if_neg (by omega)]
      intro _
      omega
    · have hcneg : c < 0 := by
        rcases lt_trichotomy c 0 with h | h | h
        · exact h
        · rw [h] at hbig
          norm_num at hbig
        · exact absurd h hc0
      have h10 := hneg hcneg
      rw [if_neg hc0]
      split_ifs with h
      · intro _
        omega
      · intro _
        omega

theorem linearWindow_cell (R m c : ℚ) (hR : 10 ≤ R) (hc : |c| * 2 ≤ R) (r : Nat)
    (hs : (linearWindow R).sampleRow c = (r : Int)) (hr : r < 21) :
    Canvas.get ((linearWindow R).plotWith (fun x => m * x + c)) r 30 = if r = 10 then '*' else '+' := by
  have hax := linearWindow_axisRow R hR
  have hac := linearWindow_axisCol R
  have hx := linearWindow_x30 R
  have habs := abs_le.mp (le_refl |c|)
  have hnn := abs_nonneg c
  have hw : writes (linearWindow R) (fun x => m * x + c) r 30 := by
    unfold writes
    rw [hx]
    simp only [mul_zero, zero_add]
    refine ⟨?_, hs, ?_, ?_⟩
    · rintro (h | h)
      · have h' : c < -R := h
        linarith [habs.1]
      · have h' : R < c := h
        linarith [habs.2]
    · show (r : Int) < 21
      omega
    · show ((30 : Nat) : Int) < 61
      decide
  rw [get_plotWith, if_pos hw, get_axesCanvas _ r 30 (by show r < Int.toNat 21; simpa using hr)
    (by show 30 < Int.toNat 61; decide)]
  unfold axesGlyph mark
  rw [hax, hac]
  by_cases h10 : r = 10
  · subst h10
    simp
  · have : ¬ ((r : Int) = 10) := by omega
    simp [h10, this]

end GraphingCalculator

/-- With exact rounding and an `exp` that agrees with `expFn` on finite values, `evaluateDbl`
on a finite argument is `evaluate`. -/
theorem evaluateDbl_fin (expD : Dbl → Dbl) (expFn : ℚ → ℚ)
    (h : ∀ t : ℚ, expD (Dbl.fin t) = Dbl.fin (expFn t)) (e : Expression) (q : ℚ) :
    e.evaluateDbl Dbl.fin expD (Dbl.fin q) = Dbl.fin (e.evaluate expFn q) := by
  unfold Expression.evaluateDbl Expression.evaluate
  cases e.shape with
  | linear m c => rfl
  | quadratic a b c => rfl
  | exponential A B =>
    show Dbl.mul Dbl.fin (Dbl.fin A) (expD (Dbl.fin (B * q))) = Dbl.fin (A * expFn (B * q))
    rw [h]
    rfl

/-! ## Claims C11 to C20 -/

/-- C11: for every slope `m`, intercept `c` and input `x`, `LinearFunction(m, c).evaluate(x)`
equals `m*x + c`. -/
theorem linear_evaluate (fmt : ℚ → String) (expFn : ℚ → ℚ) (m c x : ℚ) :
    (LinearFunction fmt m c).evaluate expFn x = m * x + c := rfl

/-- C12: for every `a`, `b`, `c` and input `x`, `QuadraticFunction(a, b, c).evaluate(x)`
equals `a*x*x + b*x + c`. -/
theorem quadratic_evaluate (fmt : ℚ → String) (expFn : ℚ → ℚ) (a b c x : ℚ) :
    (QuadraticFunction fmt a b c).evaluate expFn x = a * x * x + b * x + c := rfl

/-- C13: for every `A`, `B` and input `x`, `ExponentialFunction(A, B).evaluate(x)` equals
`A * exp(B*x)`, in exact arithmetic and on doubles with their non-finite values, whatever the
rounding and the `exp` routine; evaluation is total: for every double `x`, the infinities and
NaN included, it returns a double (finite, infinite or NaN) and has no failure path. At the
extremes, where `exp` overflows to the positive infinity the result is the infinity with the
sign of `A` (a NaN for `A = 0`), and where `exp` underflows to zero the result is zero. On
finite values with exact rounding the two embeddings agree. -/
theorem exponential_evaluate (rnd : ℚ → Dbl) (expD : Dbl → Dbl) (expFn : ℚ → ℚ)
    (fmt : ℚ → String) (A B : ℚ) :
    (∀ x : ℚ, (ExponentialFunction fmt A B).evaluate expFn x = A * expFn (B * x)) ∧
    (∀ x : Dbl, (ExponentialFunction fmt A B).evaluateDbl rnd expD x =
      Dbl.mul rnd (Dbl.fin A) (expD (Dbl.mul rnd (Dbl.fin B) x))) ∧
    (∀ x : Dbl, ∃ y : Dbl, (ExponentialFunction fmt A B).evaluateDbl rnd expD x = y ∧
      ((∃ q : ℚ, y = Dbl.fin q) ∨ y = Dbl.posInf ∨ y = Dbl.negInf ∨ y = Dbl.nan)) ∧
    (∀ x : Dbl, expD (Dbl.mul rnd (Dbl.fin B) x) = Dbl.posInf →
      (0 < A → (ExponentialFunction fmt A B).evaluateDbl rnd expD x = Dbl.posInf) ∧
      (A < 0 → (ExponentialFunction fmt A B).evaluateDbl rnd expD x = Dbl.negInf) ∧
      (A = 0 → (ExponentialFunction fmt A B).evaluateDbl rnd expD x = Dbl.nan)) ∧
    (∀ x : Dbl, expD (Dbl.mul rnd (Dbl.fin B) x) = Dbl.fin 0 → rnd 0 = Dbl.fin 0 →
      (ExponentialFunction fmt A B).evaluateDbl rnd expD x = Dbl.fin 0) ∧
    ((∀ t : ℚ, expD (Dbl.fin t) = Dbl.fin (expFn t)) → ∀ q : ℚ,
      (ExponentialFunction fmt A B).evaluateDbl Dbl.fin expD (Dbl.fin q) =
        Dbl.fin (A * expFn (B * q))) := by
  have hev : ∀ x : Dbl, (ExponentialFunction fmt A B).evaluateDbl rnd expD x =
      Dbl.mul rnd (Dbl.fin A) (expD (Dbl.mul rnd (Dbl.fin B) x)) := fun _ => rfl
  refine ⟨fun _ => rfl, hev, ?_, ?_, ?_, ?_⟩
  · intro x
    refine ⟨_, rfl, ?_⟩
    cases (ExponentialFunction fmt A B).evaluateDbl rnd expD x with
    | fin q => exact Or.inl ⟨q, rfl⟩
    | posInf => exact Or.inr (Or.inl rfl)
    | negInf => exact Or.inr (Or.inr (Or.inl rfl))
    | nan => exact Or.inr (Or.inr (Or.inr rfl))
  · intro x hx
    rw [hev, hx]
    refine ⟨?_, ?_, ?_⟩
    · intro hA
      simp [Dbl.mul, hA, ne_of_gt hA]
    · intro hA
      simp [Dbl.mul, ne_of_lt hA, not_lt.mpr hA.le]
    · intro hA
      simp [Dbl.mul, hA]
  · intro x hx h0
    rw [hev, hx]
    simp [Dbl.mul, h0]
  · intro h q
    rw [evaluateDbl_fin expD expFn h]
    rfl

/-- C13, witness: with exact rounding and the sample `exp`, `2 * exp(x)` is the positive
infinity at `x = 1000`, zero at `x = -1000` and the finite value 5 at `x = 1`, and
`2 * exp(0 * x)` is a NaN at the positive infinity. -/
theorem exponential_evaluate_witness :
    (ExponentialFunction fmtSample 2 1).evaluateDbl Dbl.fin expDSample (Dbl.fin 1000) =
        Dbl.posInf ∧
      (ExponentialFunction fmtSample 2 1).evaluateDbl Dbl.fin expDSample (Dbl.fin (-1000)) =
        Dbl.fin 0 ∧
      (ExponentialFunction fmtSample 2 0).evaluateDbl Dbl.fin expDSample Dbl.posInf = Dbl.nan ∧
      (ExponentialFunction fmtSample 2 1).evaluateDbl Dbl.fin expDSample (Dbl.fin 1) =
        Dbl.fin 5 := by
  have h := exponential_evaluate Dbl.fin expDSample expSample fmtSample 2 1
  refine ⟨(h.2.2.2.1 (Dbl.fin 1000) (by decide!)).1 (by norm_num),
    h.2.2.2.2.1 (Dbl.fin (-1000)) (by decide!) rfl, by decide!, by decide!⟩

namespace FileManager

/-- C14: for every function, `xMin`, `xMax` and `points >= 1`, `saveGraphData` writes exactly
`points + 1` data rows, row `i` holding `x = xMin + i * (xMax - xMin) / points` and
`y = evaluate(x)`; the first row has `x = xMin`, the last row has `x = xMax`; the file holds
the header followed by these rows, each value formatted by the fixed four-decimal
formatter. -/
theorem saveGraphData_rows (fixed4 : ℚ → String) (expFn : ℚ → ℚ) (func : Expression) (xMin xMax : ℚ)
    (points : Int) (filename : String) (hp : 1 ≤ points) :
    ((graphDataRows expFn func xMin xMax points).length : Int) = points + 1 ∧
    (∀ i : Nat, (i : Int) ≤ points →
      (graphDataRows expFn func xMin xMax points)[i]? =
        some (xMin + (i : ℚ) * (xMax - xMin) / (points : ℚ),
          func.evaluate expFn (xMin + (i : ℚ) * (xMax - xMin) / (points : ℚ)))) ∧
    ((graphDataRows expFn func xMin xMax points)[0]?).map Prod.fst = some xMin ∧
    ((graphDataRows expFn func xMin xMax points)[points.toNat]?).map Prod.fst = some xMax ∧
    (saveGraphData fixed4 expFn true func xMin xMax points filename).file =
      some ("Function: " ++ func.getExpression ++
        "\nX\t\tY\n=============================\n" ++
        String.join ((graphDataRows expFn func xMin xMax points).map
          (fun r => fixed4 r.1 ++ "\t\t" ++ fixed4 r.2 ++ "\n"))) := by
  have hp0 : (points : ℚ) ≠ 0 := by
    have : points ≠ 0 := by omega
    exact_mod_cast this
  have hrow : ∀ i : Nat, (i : Int) ≤ points →
      (graphDataRows expFn func xMin xMax points)[i]? =
        some (xMin + (i : ℚ) * (xMax - xMin) / (points : ℚ),
          func.evaluate expFn (xMin + (i : ℚ) * (xMax - xMin) / (points : ℚ))) := by
    intro i hi
    rw [graphDataRows_getElem? expFn func xMin xMax points i hi]
    have e : xMin + ((i : Int) : ℚ) * ((xMax - xMin) / (points : ℚ)) =
        xMin + (i : ℚ) * (xMax - xMin) / (points : ℚ) := by
      push_cast
      ring
    rw [e]
  refine ⟨?_, hrow, ?_, ?_, rfl⟩
  · rw [graphDataRows_length]
    omega
  · rw [hrow 0 (by omega)]
    simp
  · rw [hrow points.toNat (by omega)]
    have e : ((points.toNat : Nat) : ℚ) = (points : ℚ) := by
      have : ((points.toNat : Nat) : Int) = points := Int.toNat_of_nonneg (by omega)
      exact_mod_cast this
    rw [e]
    simp only [Option.map_some', Option.some.injEq]
    field_simp

/-- C14, witness: `LinearFunction(2, 1)` sampled on `[-10, 10]` with `points = 4` gives the
five rows at `x = -10, -5, 0, 5, 10`. -/
theorem saveGraphData_rows_witness :
    ((graphDataRows expSample (LinearFunction fmtSample 2 1) (-10) 10 4).length : Int) = 4 + 1 ∧
      graphDataRows expSample (LinearFunction fmtSample 2 1) (-10) 10 4 =
        [(-10, -19), (-5, -9), (0, 1), (5, 11), (10, 21)] :=
  ⟨(saveGraphData_rows fmtSample expSample (LinearFunction fmtSample 2 1) (-10) 10 4
    "graph_data.txt" (by decide)).1, by decide!⟩

end FileManager

/-- C15: the text built at construction. `LinearFunction(m, c)` has text
`"y = " ++ fmt(m) ++ "x"` followed by `" - " ++ fmt(-c)` when `c` is negative and by
`" + " ++ fmt(c)` otherwise; `QuadraticFunction(a, b, c)` has text `"y = " ++ fmt(a) ++ "x^2"`
followed by the same two forms for `b`, then `"x"`, then the same two forms for `c`;
`ExponentialFunction(A, B)`, which has no term after the leading one, has text
`"y = " ++ fmt(A) ++ "*e^(" ++ fmt(B) ++ "x)"`. -/
theorem expression_text_sign_aware (fmt : ℚ → String) :
    (∀ m c : ℚ, (LinearFunction fmt m c).getExpression =
      "y = " ++ fmt m ++ "x" ++ (if c < 0 then " - " ++ fmt (-c) else " + " ++ fmt c)) ∧
    (∀ a b c : ℚ, (QuadraticFunction fmt a b c).getExpression =
      "y = " ++ fmt a ++ "x^2" ++ (if b < 0 then " - " ++ fmt (-b) else " + " ++ fmt b) ++ "x" ++
        (if c < 0 then " - " ++ fmt (-c) else " + " ++ fmt c)) ∧
    (∀ A B : ℚ, (ExponentialFunction fmt A B).getExpression =
      "y = " ++ fmt A ++ "*e^(" ++ fmt B ++ "x)") := by
  refine ⟨?_, ?_, ?_⟩
  · intro m c
    unfold LinearFunction Expression.getExpression
    simp only []
    by_cases h : c < 0
    · rw [if_neg (not_le.mpr h), if_pos h]
      simp only [String.append_assoc]
    · rw [if_pos (not_lt.mp h), if_neg h]
      simp only [String.append_assoc]
  · intro a b c
    unfold QuadraticFunction Expression.getExpression
    simp only []
    by_cases h : b < 0 <;> by_cases h' : c < 0
    · rw [if_neg (not_le.mpr h), if_pos h, if_neg (not_le.mpr h'), if_pos h']
      simp only [String.append_assoc]
    · rw [if_neg (not_le.mpr h), if_pos h, if_pos (not_lt.mp h'), if_neg h']
      simp only [String.append_assoc]
    · rw [if_pos (not_lt.mp h), if_neg h, if_neg (not_le.mpr h'), if_pos h']
      simp only [String.append_assoc]
    · rw [if_pos (not_lt.mp h), if_neg h, if_pos (not_lt.mp h'), if_neg h']
      simp only [String.append_assoc]
  · intro A B
    rfl

namespace GraphPlotter

/-- C16: before any sample is drawn, every cell `(r, c)` of the grid is `+` when `r` is the
axis row and `c` the axis column, otherwise `|` when `c` is the axis column, otherwise `-`
when `r` is the axis row, otherwise blank; an axis row outside the grid leaves only the
vertical axis, an axis column outside the grid leaves only the horizontal axis. -/
theorem axesCanvas_cells (p : GraphPlotter) (r c : Nat) (hr : (r : Int) < p.height) (hc : (c : Int) < p.width) :
    Canvas.get p.axesCanvas r c =
        (if (r : Int) = p.yToScreen 0 ∧ (c : Int) = p.xToScreen 0 then '+'
        else if (c : Int) = p.xToScreen 0 then '|'
        else if (r : Int) = p.yToScreen 0 then '-'
        else ' ') ∧
      (¬ (0 ≤ p.yToScreen 0 ∧ p.yToScreen 0 < p.height) →
        Canvas.get p.axesCanvas r c = if (c : Int) = p.xToScreen 0 then '|' else ' ') ∧
      (¬ (0 ≤ p.xToScreen 0 ∧ p.xToScreen 0 < p.width) →
        Canvas.get p.axesCanvas r c = if (r : Int) = p.yToScreen 0 then '-' else ' ') := by
  have h := get_axesCanvas p r c (by omega) (by omega)
  unfold axesGlyph at h
  refine ⟨h, ?_, ?_⟩
  · intro hR
    have hne : ¬ (r : Int) = p.yToScreen 0 := fun e => hR (by rw [← e]; omega)
    rw [h]
    simp [hne]
  · intro hC
    have hne : ¬ (c : Int) = p.xToScreen 0 := fun e => hC (by rw [← e]; omega)
    rw [h]
    simp [hne]

/-- C16, witness: on the default plotter cell (10, 30) is `+`, cell (3, 30) is `|`, cell
(10, 7) is `-` and cell (3, 7) is blank. -/
theorem axesCanvas_cells_witness :
    Canvas.get (init 61 21).axesCanvas 10 30 = '+' ∧
      Canvas.get (init 61 21).axesCanvas 3 30 = '|' ∧
      Canvas.get (init 61 21).axesCanvas 10 7 = '-' ∧
      Canvas.get (init 61 21).axesCanvas 3 7 = ' ' := by
  have h1 := (axesCanvas_cells (init 61 21) 10 30 (by decide) (by decide)).1
  have h2 := (axesCanvas_cells (init 61 21) 3 30 (by decide) (by decide)).1
  have h3 := (axesCanvas_cells (init 61 21) 10 7 (by decide) (by decide)).1
  have h4 := (axesCanvas_cells (init 61 21) 3 7 (by decide) (by decide)).1
  rw [h1, h2, h3, h4]
  decide!

/-- C17: for every column whose sample is in the window and whose target row `r` is inside
the grid, cell `(r, col)` of the plotted canvas is `+` if that cell of the axes-only canvas
holds `-` or `|`, and `*` otherwise. -/
theorem plot_sample_glyph (expFn : ℚ → ℚ) (p : GraphPlotter) (func : Expression) (col r : Nat)
    (hwin : p.yMin ≤ func.evaluate expFn (p.screenToX col) ∧
      func.evaluate expFn (p.screenToX col) ≤ p.yMax)
    (hrow : p.sampleRow (func.evaluate expFn (p.screenToX col)) = (r : Int))
    (hr : (r : Int) < p.height) (hc : (col : Int) < p.width) :
    Canvas.get (plot expFn p func) r col =
      if Canvas.get p.axesCanvas r col = '-' ∨ Canvas.get p.axesCanvas r col = '|' then '+'
      else '*' := by
  have hin : ¬ (func.evaluate expFn (p.screenToX col) < p.yMin ∨
      func.evaluate expFn (p.screenToX col) > p.yMax) := by
    rintro (h | h)
    · exact absurd hwin.1 (not_le.mpr h)
    · exact absurd hwin.2 (not_le.mpr h)
  have hw : writes p (func.evaluate expFn) r col := ⟨hin, hrow, hr, hc⟩
  unfold plot
  rw [get_plotWith, if_pos hw]
  rfl

/-- C17, witness: for `LinearFunction(1/2, 3)` on the default plotter the sample of column
30 falls on the vertical axis in row 7 and is drawn `+`, the sample of column 31 falls on the
blank cell of row 6 and is drawn `*`. -/
theorem plot_sample_glyph_witness :
    Canvas.get (plot expSample (init 61 21) (LinearFunction fmtSample (1 / 2) 3)) 7 30 = '+' ∧
      Canvas.get (plot expSample (init 61 21) (LinearFunction fmtSample (1 / 2) 3)) 6 31
        = '*' := by
  have h1 := plot_sample_glyph expSample (init 61 21) (LinearFunction fmtSample (1 / 2) 3) 30 7
    (by rw [evaluate_linear]; decide!) (by rw [evaluate_linear]; decide!) (by decide)
    (by decide)
  have h2 := plot_sample_glyph expSample (init 61 21) (LinearFunction fmtSample (1 / 2) 3) 31 6
    (by rw [evaluate_linear]; decide!) (by rw [evaluate_linear]; decide!) (by decide)
    (by decide)
  rw [h1, h2]
  decide!

end GraphPlotter

namespace GraphingCalculator

open GraphPlotter

/-- C18: for every `m` and `c`, `plotLinear` on the default 61x21 grid plots with the window
`[-10,10] x [-R,R]`, `R = max(10, 2*|c|)`; the sample of column 30 is `c`, it is inside the
window and its target row is inside the grid; when `|c| < 0.01` the target row is 10 and
cell (10, 30) holds `*`; otherwise the target row is between 5 and 15, is not 10, and the
cell of column 30 in that row holds `+`. -/
theorem plotLinear_intercept_drawn (fmt : ℚ → String) (expFn : ℚ → ℚ) (gc : GraphingCalculator) (m c : ℚ)
    (hw : gc.plotter.width = 61) (hh : gc.plotter.height = 21) :
    (plotLinear fmt expFn gc m c).1.plotter =
      linearWindow (max 10 (|c| * 2)) ∧
    (LinearFunction fmt m c).evaluate expFn
      ((plotLinear fmt expFn gc m c).1.plotter.screenToX ((30 : Nat) : Int)) = c ∧
    ((plotLinear fmt expFn gc m c).1.plotter.yMin ≤ c ∧
      c ≤ (plotLinear fmt expFn gc m c).1.plotter.yMax) ∧
    (0 ≤ (plotLinear fmt expFn gc m c).1.plotter.sampleRow c ∧
      (plotLinear fmt expFn gc m c).1.plotter.sampleRow c < 21) ∧
    (|c| < 1 / 100 →
      (plotLinear fmt expFn gc m c).1.plotter.sampleRow c = 10 ∧
      Canvas.get (plotLinear fmt expFn gc m c).2 10 30 = '*') ∧
    (|c| ≥ 1 / 100 →
      (plotLinear fmt expFn gc m c).1.plotter.sampleRow c ≠ 10 ∧
      5 ≤ (plotLinear fmt expFn gc m c).1.plotter.sampleRow c ∧
      (plotLinear fmt expFn gc m c).1.plotter.sampleRow c ≤ 15 ∧
      Canvas.get (plotLinear fmt expFn gc m c).2
        ((plotLinear fmt expFn gc m c).1.plotter.sampleRow c).toNat 30 = '+') := by
  have hR : (10 : ℚ) ≤ max 10 (|c| * 2) := le_max_left _ _
  have hc : |c| * 2 ≤ max 10 (|c| * 2) := le_max_right _ _
  have hp : (plotLinear fmt expFn gc m c).1.plotter =
      linearWindow (max 10 (|c| * 2)) :=
    plotLinear_plotter gc hw hh _
  have hcv : (plotLinear fmt expFn gc m c).2 =
      (linearWindow (max 10 (|c| * 2))).plotWith
        (fun x => m * x + c) := by
    show (gc.plotter.setRange (-10) 10 (-(max 10 (|c| * 2))) (max 10 (|c| * 2))).plotWith
      ((LinearFunction fmt m c).evaluate expFn) = _
    rw [plotLinear_plotter gc hw hh, evaluate_linear]
  rw [hp, hcv]
  generalize max 10 (|c| * 2) = R at hR hc
  obtain ⟨hsmall, hbig⟩ := linearWindow_sampleRow R c hR hc
  have habs := abs_le.mp (le_refl |c|)
  have hnn := abs_nonneg c
  have hrow : 0 ≤ (linearWindow R).sampleRow c ∧
      (linearWindow R).sampleRow c < 21 := by
    by_cases h : |c| < 1 / 100
    · rw [hsmall h]
      decide
    · have := hbig (not_lt.mp h)
      omega
  have hmin : (linearWindow R).yMin ≤ c := by
    show -R ≤ c
    linarith [habs.1]
  have hmax : c ≤ (linearWindow R).yMax := by
    show c ≤ R
    linarith [habs.2]
  refine ⟨rfl, ?_, ⟨hmin, hmax⟩, hrow, ?_, ?_⟩
  · rw [linearWindow_x30, evaluate_linear]
    simp
  · intro h
    refine ⟨hsmall h, ?_⟩
    exact linearWindow_cell R m c hR hc 10 (by rw [hsmall h]; rfl) (by decide)
  · intro h
    obtain ⟨hne, h5, h15⟩ := hbig h
    refine ⟨hne, h5, h15, ?_⟩
    rw [linearWindow_cell R m c hR hc _ (Int.toNat_of_nonneg hrow.1).symm (by omega)]
    rw [if_neg]
    omega

/-- C18, witness: from a fresh calculator, `y = x/2 + 3` has `+` in cell (7, 30),
`y = 2x` has `*` in cell (10, 30), and `y = x - 40` is plotted with `yMax = 80` and has `+`
in cell (15, 30). -/
theorem plotLinear_intercept_drawn_witness :
    Canvas.get (plotLinear fmtSample expSample init (1 / 2) 3).2 7 30 = '+' ∧
      Canvas.get (plotLinear fmtSample expSample init 2 0).2 10 30 = '*' ∧
      (plotLinear fmtSample expSample init 1 (-40)).1.plotter.yMax = 80 ∧
      Canvas.get (plotLinear fmtSample expSample init 1 (-40)).2 15 30 = '+' := by
  have h1 := plotLinear_intercept_drawn fmtSample expSample init (1 / 2) 3 rfl rfl
  have h2 := plotLinear_intercept_drawn fmtSample expSample init 2 0 rfl rfl
  have h3 := plotLinear_intercept_drawn fmtSample expSample init 1 (-40) rfl rfl
  refine ⟨?_, (h2.2.2.2.2.1 (by norm_num)).2, ?_, ?_⟩
  · have := (h1.2.2.2.2.2 (by norm_num [abs_of_pos])).2.2.2
    rw [h1.1] at this
    have e : ((linearWindow (max 10 (|(3 : ℚ)| * 2))).sampleRow 3).toNat = 7 := by decide!
    rw [e] at this
    exact this
  · rw [h3.1]
    decide!
  · have := (h3.2.2.2.2.2 (by norm_num [abs_of_neg])).2.2.2
    rw [h3.1] at this
    have e : ((linearWindow (max 10 (|(-40 : ℚ)| * 2))).sampleRow (-40)).toNat = 15 := by decide!
    rw [e] at this
    exact this

end GraphingCalculator

namespace GraphPlotter

/-- C19: for every function, window and grid size, the plotted canvas differs from the
axes-only canvas in at most one cell of each column; the loop body of column `col` changes
at most the one cell of column `col` in the target row; and every cell of the plotted canvas
is one of the five glyphs blank, `-`, `|`, `+`, `*`. -/
theorem plot_one_cell_per_column (expFn : ℚ → ℚ) (p : GraphPlotter) (func : Expression) :
    (∀ col r1 r2 : Nat,
      Canvas.get (plot expFn p func) r1 col ≠ Canvas.get p.axesCanvas r1 col →
      Canvas.get (plot expFn p func) r2 col ≠ Canvas.get p.axesCanvas r2 col → r1 = r2) ∧
    (∀ (canvas : Canvas) (col r c : Nat),
      Canvas.get (p.plotColumn (func.evaluate expFn) canvas (col : Int)) r c ≠ Canvas.get canvas r c →
        c = col ∧ (r : Int) = p.sampleRow (func.evaluate expFn (p.screenToX col))) ∧
    (∀ r c : Nat,
      Canvas.get (plot expFn p func) r c = ' ' ∨ Canvas.get (plot expFn p func) r c = '-' ∨
        Canvas.get (plot expFn p func) r c = '|' ∨ Canvas.get (plot expFn p func) r c = '+' ∨
        Canvas.get (plot expFn p func) r c = '*') := by
  unfold plot
  generalize func.evaluate expFn = ev
  refine ⟨?_, ?_, ?_⟩
  · intro col r1 r2 h1 h2
    rw [get_plotWith] at h1 h2
    have w1 : writes p ev r1 col := by
      by_contra hn
      rw [if_neg hn] at h1
      exact h1 rfl
    have w2 : writes p ev r2 col := by
      by_contra hn
      rw [if_neg hn] at h2
      exact h2 rfl
    have e := w1.2.1.symm.trans w2.2.1
    exact_mod_cast e
  · intro canvas col r c h
    rw [plotColumn_eq] at h
    split_ifs at h with hg
    · rw [Canvas.get_set] at h
      split_ifs at h with hs
      · obtain ⟨hr, hc, -⟩ := hs
        refine ⟨hc, ?_⟩
        rw [hr]
        exact Int.toNat_of_nonneg hg.2.1
      · exact absurd rfl h
    · exact absurd rfl h
  · intro r c
    rw [get_plotWith]
    split_ifs
    · unfold mark
      split_ifs
      · right; right; right; left; rfl
      · right; right; right; right; rfl
    · rcases get_axesCanvas_cases p r c with h | h | h | h
      · left; exact h
      · right; left; exact h
      · right; right; left; exact h
      · right; right; right; left; exact h

/-- C20: for every window with `xMin < xMax` and `yMin < yMax` and every `width >= 1` and
`height >= 1`, `xToScreen` sends `[xMin, xMax]` into `[0, width - 1]` and `yToScreen` sends
`[yMin, yMax]` into `[0, height - 1]`; hence a sample inside the window that the bounds check
rejects has a target row that the near-zero or nudge adjustment changed. -/
theorem toScreen_in_grid (p : GraphPlotter) (hx : p.xMin < p.xMax) (hy : p.yMin < p.yMax)
    (hw : 1 ≤ p.width) (hh : 1 ≤ p.height) :
    (∀ x : ℚ, p.xMin ≤ x → x ≤ p.xMax → 0 ≤ p.xToScreen x ∧ p.xToScreen x ≤ p.width - 1) ∧
    (∀ y : ℚ, p.yMin ≤ y → y ≤ p.yMax → 0 ≤ p.yToScreen y ∧ p.yToScreen y ≤ p.height - 1) ∧
    (∀ y : ℚ, p.yMin ≤ y → y ≤ p.yMax →
      ¬ (p.sampleRow y ≥ 0 ∧ p.sampleRow y < p.height) → p.sampleRow y ≠ p.yToScreen y) := by
  have hX : ∀ x : ℚ, p.xMin ≤ x → x ≤ p.xMax →
      0 ≤ p.xToScreen x ∧ p.xToScreen x ≤ p.width - 1 := by
    intro x h1 h2
    exact toScreen_bounds p.xMin p.xMax x p.width hx hw h1 h2
  have hY : ∀ y : ℚ, p.yMin ≤ y → y ≤ p.yMax →
      0 ≤ p.yToScreen y ∧ p.yToScreen y ≤ p.height - 1 := by
    intro y h1 h2
    have h := toScreen_bounds (-p.yMax) (-p.yMin) (-y) p.height (by linarith) hh
      (by linarith) (by linarith)
    have e : (-y - -p.yMax) / (-p.yMin - -p.yMax) = (p.yMax - y) / (p.yMax - p.yMin) := by
      congr 1 <;> ring
    rw [e] at h
    exact h
  refine ⟨hX, hY, ?_⟩
  intro y h1 h2 hrej heq
  rw [heq] at hrej
  have := hY y h1 h2
  exact hrej ⟨this.1, by omega⟩

/-- C20, witness: on the default plotter the right edge `x = 10` has column 60 and the bottom
edge `y = -10` has row 20. -/
theorem toScreen_in_grid_witness :
    (init 61 21).xToScreen 10 = 60 ∧ (init 61 21).yToScreen (-10) = 20 ∧
      (0 ≤ (init 61 21).xToScreen 10 ∧ (init 61 21).xToScreen 10 ≤ (init 61 21).width - 1) ∧
      (0 ≤ (init 61 21).yToScreen (-10) ∧
        (init 61 21).yToScreen (-10) ≤ (init 61 21).height - 1) := by
  have h := toScreen_in_grid (init 61 21) (by decide!) (by decide!) (by decide) (by decide)
  exact ⟨by decide!, by decide!, h.1 10 (by decide!) (by decide!),
    h.2.1 (-10) (by decide!) (by decide!)⟩

end GraphPlotter

end GraphCalc
